import Mathlib

/-!
# Verification of the extraction_api core

A shallow embedding, in Lean 4, of the core logic of the `extraction_api`
repository:

* `src/extraction/extractor.py` — schema detector and the heuristic
  extractors (LinkedIn, resume-block, generic, certificate);
* `src/extraction/ocr.py` — the API-backed extraction orchestrator
  (`extract_proof`): credential / proof-type validation, retry policy,
  HTTP outcome classification, confidence gating, content-addressed cache;
* `src/extraction/views.py` — the validation-hash computation
  (`hash_result`) and its use in `ExtractView.post`.

Python values are modelled by `JVal` (JSON-like trees with exact rational
numbers standing in for floats; the confidence threshold 0.5 and all
confidence literals used below are exactly representable).  Python dicts
are modelled as insertion-ordered association lists with the
update-in-place-or-append semantics of dict assignment.  Exceptions are
modelled by `Except` with an error type distinguishing `PermanentAPIError`,
`TransientAPIError` and any other (uncaught) Python exception.

Two standard-library primitives are not re-implemented and instead appear
as explicit function parameters, universally quantified in every theorem
that mentions them: SHA-256 (`sha : String → String` / the cache key
function) and the JSON text parser `json.loads`
(`jl : String → Option JVal`, `none` modelling `JSONDecodeError`).  No
theorem below depends on any property of these functions beyond their
being functions.

Character-level regex matching is modelled for the ASCII fragment actually
exercised by the patterns in the source (character classes `\d`, `\s`,
`\w`, `[a-z]` under `re.IGNORECASE` are read as their ASCII meaning, and
`str.lower`/`str.isupper` as their ASCII restrictions).
-/

/-- JSON-like values, modelling the Python values that flow through the
extraction pipeline.  Floats are modelled as exact rationals.  Arrays and
objects are first-order cons-chains (`anil`/`acons`, `onil`/`ocons`) so that
decidable equality derives; an object is the chain of its entries in
insertion order, mirroring a Python dict. -/
inductive JVal where
  | null : JVal
  | bool (b : Bool) : JVal
  | num (q : ℚ) : JVal
  | str (s : String) : JVal
  | anil : JVal
  | acons (hd tl : JVal) : JVal
  | onil : JVal
  | ocons (key : String) (val tl : JVal) : JVal
deriving DecidableEq

/-- Python truthiness (`bool(v)`) for the values of `JVal`. -/
def pyFalsy : JVal → Bool
  | .null => true
  | .bool b => !b
  | .num q => q = 0
  | .str s => s = ""
  | .anil => true
  | .acons _ _ => false
  | .onil => true
  | .ocons _ _ _ => false

/-- Models `d.get(k)` / `d[k]` lookup on an object (insertion-ordered dict). -/
def JVal.get : JVal → String → Option JVal
  | .ocons k v tl, key => if k = key then some v else tl.get key
  | _, _ => none

/-- Models `d[k] = v` on a Python dict: overwrite in place if the key exists
(keeping its position), otherwise append at the end.  On a non-object the
operation is the identity (Python would raise; never reached below). -/
def JVal.set : JVal → String → JVal → JVal
  | .ocons k v tl, key, nv =>
      if k = key then .ocons k nv tl else .ocons k v (tl.set key nv)
  | .onil, key, nv => .ocons key nv .onil
  | other, _, _ => other

/-- The entry list of an object value, in insertion order. -/
def JVal.toPairs : JVal → List (String × JVal)
  | .ocons k v tl => (k, v) :: tl.toPairs
  | _ => []

/-- Build an object value from an entry list. -/
def ofPairs : List (String × JVal) → JVal
  | [] => .onil
  | (k, v) :: rest => .ocons k v (ofPairs rest)

/-- Build an array value from a list of strings. -/
def ofStrList : List String → JVal
  | [] => .anil
  | s :: rest => .acons (.str s) (ofStrList rest)

/-- Lookup in an association list (the cache, and the heap below). -/
def alookup {κ α : Type} [DecidableEq κ] (k : κ) : List (κ × α) → Option α
  | [] => none
  | (k', v) :: rest => if k' = k then some v else alookup k rest

/-- Insert-or-overwrite in an association list. -/
def aset {κ α : Type} [DecidableEq κ] (k : κ) (v : α) :
    List (κ × α) → List (κ × α)
  | [] => [(k, v)]
  | (k', v') :: rest =>
      if k' = k then (k', v) :: rest else (k', v') :: aset k v rest

/-- The review threshold 0.5 and the confidence literals used in concrete
scenarios, written as explicit normalised rationals (they reduce inside
the kernel, unlike `/` on `ℚ`). -/
def halfQ : ℚ := ⟨1, 2, by decide, by decide⟩

def q910 : ℚ := ⟨9, 10, by decide, by decide⟩

def q110 : ℚ := ⟨1, 10, by decide, by decide⟩

-- ── ASCII character classes used by the source's regexes ──────────────────

/-- Python `\s` (ASCII fragment). -/
def isPyWs (c : Char) : Bool :=
  c = ' ' || c = '\t' || c = '\n' || c = '\r' || c = '\x0b' || c = '\x0c'

def isAsciiDigit (c : Char) : Bool := '0' ≤ c && c ≤ '9'

def isAsciiLower (c : Char) : Bool := 'a' ≤ c && c ≤ 'z'

def isAsciiUpper (c : Char) : Bool := 'A' ≤ c && c ≤ 'Z'

def isAsciiAlpha (c : Char) : Bool := isAsciiLower c || isAsciiUpper c

/-- Python `\w` (ASCII fragment). -/
def isWordChar (c : Char) : Bool :=
  isAsciiAlpha c || isAsciiDigit c || c = '_'

/-- ASCII case folding, modelling `str.lower` on the inputs exercised. -/
def lowerChar (c : Char) : Char :=
  if isAsciiUpper c then Char.ofNat (c.toNat + 32) else c

def pyLower (s : String) : String := (s.toList.map lowerChar).asString

-- ── Generic list/string scanning helpers ──────────────────────────────────

/-- Models `takeWhile`/`dropWhile` pair (maximal munch of a character class). -/
def spanP (p : Char → Bool) (cs : List Char) : List Char × List Char :=
  (cs.takeWhile p, cs.dropWhile p)

/-- Does `needle` occur at the head of `hay` (case-sensitive)? -/
def startsWithL : List Char → List Char → Bool
  | [], _ => true
  | _ :: _, [] => false
  | a :: as, b :: bs => a = b && startsWithL as bs

/-- Case-insensitive (ASCII) variant of `startsWithL`. -/
def ciStartsL : List Char → List Char → Bool
  | [], _ => true
  | _ :: _, [] => false
  | a :: as, b :: bs => lowerChar a = lowerChar b && ciStartsL as bs

/-- Python's `needle in hay` substring test. -/
def containsSub : List Char → List Char → Bool
  | n, [] => startsWithL n []
  | n, c :: rest => startsWithL n (c :: rest) || containsSub n rest

/-- Substring test on strings, as used by `tok in line.lower()`. -/
def substrOf (needle hay : String) : Bool :=
  containsSub needle.toList hay.toList

-- ── Python string splitting / stripping ───────────────────────────────────

/-- Line-boundary characters recognised by `str.splitlines`. -/
def isLineBoundary (c : Char) : Bool :=
  c = '\n' || c = '\r' || c = '\x0b' || c = '\x0c' ||
  c = '\x1c' || c = '\x1d' || c = '\x1e' || c = '\x85' ||
  c = Char.ofNat 0x2028 || c = Char.ofNat 0x2029

/-- Models `str.splitlines` (no trailing empty line; `\r\n` is one boundary). -/
def pySplitlinesAux : List Char → List Char → List String
  | [], acc => if acc.isEmpty then [] else [acc.reverse.asString]
  | '\r' :: '\n' :: rest, acc => acc.reverse.asString :: pySplitlinesAux rest []
  | c :: rest, acc =>
      if isLineBoundary c then acc.reverse.asString :: pySplitlinesAux rest []
      else pySplitlinesAux rest (c :: acc)

def pySplitlines (s : String) : List String := pySplitlinesAux s.toList []

/-- Models `str.split("\n")` (keeps empty fragments, unlike `splitlines`). -/
def splitNlAux : List Char → List Char → List String
  | [], acc => [acc.reverse.asString]
  | '\n' :: rest, acc => acc.reverse.asString :: splitNlAux rest []
  | c :: rest, acc => splitNlAux rest (c :: acc)

def splitNl (s : String) : List String := splitNlAux s.toList []

/-- Models `str.strip()` (whitespace strip on both ends). -/
def pyStrip (s : String) : String :=
  (((s.toList.dropWhile isPyWs).reverse.dropWhile isPyWs).reverse).asString

/-- Models `[l.strip() for l in text.splitlines() if l.strip()]`, the line
normalisation shared by `detect_schema` and the job extractors. -/
def pyLines (text : String) : List String :=
  ((pySplitlines text).map pyStrip).filter (fun l => l ≠ "")

/-- Models `" ".join lines` for the certificate extractor. -/
def joinSpace : List String → String
  | [] => ""
  | [l] => l
  | l :: rest => l ++ " " ++ joinSpace rest

-- ── Shared pattern library (extractor.py constants) ───────────────────────

/-- The twelve three-letter month stems of `MONTH` in `extractor.py`. -/
def MONTHS3 : List String :=
  ["Jan", "Feb", "Mar", "Apr", "May", "Jun",
   "Jul", "Aug", "Sep", "Oct", "Nov", "Dec"]

/-- Models `EMPLOYMENT_TYPES` from `extractor.py`, in source order (the order is
observable: keyword scans return the first token found). -/
def EMPLOYMENT_TYPES : List String :=
  ["full-time", "part-time", "contract", "freelance",
   "internship", "seasonal", "self-employed", "remote"]

/-- The bullet characters of `^[•●\-\*]` (detector and resume extractor). -/
def BULLET_CHARS : List Char := ['•', '●', '-', '*']

/-- Exactly four ASCII digits at the head (`\d{4}`); a fifth digit may
follow (the pattern does not forbid it). -/
def takeDigits4 (cs : List Char) : Option (List Char × List Char) :=
  let d := cs.take 4
  if d.length = 4 && d.all isAsciiDigit then some (d, cs.drop 4) else none

/-- Models `(?:Jan|…|Dec)` under `re.IGNORECASE`: the month stems are three
characters each and pairwise distinct, so at most one alternative matches. -/
def matchMonth3 (cs : List Char) : Option (List Char × List Char) :=
  if MONTHS3.any (fun m => ciStartsL m.toList cs) then
    some (cs.take 3, cs.drop 3)
  else none

/-- One date of `DATE = (?:MONTH\s+)?\d{4}` at the head of `cs`
(`re.IGNORECASE`); returns (consumed, rest).  Regex preference order: the
month-prefixed branch is tried first; on its failure the engine backtracks
to the bare `\d{4}` branch.  The classes `[a-z]` (ignore-case), `\s`, `\d`
are pairwise disjoint, so greedy matching never needs further
backtracking. -/
def matchDateG (cs : List Char) : Option (List Char × List Char) :=
  match matchMonth3 cs with
  | some (m, r) =>
      let (ls, r2) := spanP isAsciiAlpha r
      let (ws, r3) := spanP isPyWs r2
      if ws.isEmpty then takeDigits4 cs
      else
        match takeDigits4 r3 with
        | some (d, r4) => some (m ++ ls ++ ws ++ d, r4)
        | none => takeDigits4 cs
  | none => takeDigits4 cs

/-- Models `Present` under `re.IGNORECASE` at the head of `cs`. -/
def matchPresent (cs : List Char) : Option (List Char × List Char) :=
  if ciStartsL ("present".toList) cs then some (cs.take 7, cs.drop 7)
  else none

/-- The second capture group `({DATE}|Present)` of `DATE_RANGE_PAT`
(alternation preference: date first). -/
def matchRangeEnd (cs : List Char) : Option (List Char × List Char) :=
  match matchDateG cs with
  | some r => some r
  | none => matchPresent cs

/-- Models `DATE_RANGE_PAT` = `({DATE})\s*[-–]\s*({DATE}|Present)` anchored at the
head of `cs`; returns the two capture groups. -/
def dateRangeAt (cs : List Char) : Option (String × String) :=
  match matchDateG cs with
  | none => none
  | some (g1, r1) =>
      match (spanP isPyWs r1).2 with
      | [] => none
      | d :: r3 =>
          if d = '-' || d = '–' then
            match matchRangeEnd ((spanP isPyWs r3).2) with
            | some (g2, _) => some (g1.asString, g2.asString)
            | none => none
          else none

/-- Models `DATE_RANGE_PAT.search`: leftmost match wins. -/
def dateRangeSearchL : List Char → Option (String × String)
  | [] => none
  | c :: rest =>
      match dateRangeAt (c :: rest) with
      | some g => some g
      | none => dateRangeSearchL rest

def dateRangeSearch (s : String) : Option (String × String) :=
  dateRangeSearchL s.toList

/-- Models `"g1 - g2"` normalisation of a found date range. -/
def rangeText (g : String × String) : String := g.1 ++ " - " ++ g.2

-- ── Duration pattern of detect_schema: \d+\s+yrs?\b|\d+\s+mos?\b ──────────

/-- Models `\b` against the following characters: true at end of input or before a
non-word character. -/
def nonWordOrEnd : List Char → Bool
  | [] => true
  | c :: _ => !isWordChar c

/-- Models `s?\b` after a unit stem: with the optional `s` taken greedily the
boundary is checked after it; backtracking to the s-less branch then faces
the word character `s` itself, so it never rescues the match. -/
def durBoundary : List Char → Bool
  | 's' :: r2 => nonWordOrEnd r2
  | r => nonWordOrEnd r

/-- Models `yrs?\b` resp. `mos?\b` at the head (case-sensitive), with unit stem
`u1 u2`. -/
def durUnitTok (u1 u2 : Char) : List Char → Bool
  | c1 :: c2 :: rest => c1 = u1 && c2 = u2 && durBoundary rest
  | _ => false

/-- Models `\d+\s+yrs?\b|\d+\s+mos?\b` anchored at the head of `cs`.  Both
alternatives share the `\d+\s+` preamble; `\d`, `\s` and the unit letters
are pairwise disjoint so greedy runs are exact. -/
def durAt (cs : List Char) : Bool :=
  let (ds, r) := spanP isAsciiDigit cs
  if ds.isEmpty then false
  else
    let (ws, r2) := spanP isPyWs r
    if ws.isEmpty then false
    else durUnitTok 'y' 'r' r2 || durUnitTok 'm' 'o' r2

/-- Models `re.search` of the duration pattern (existence only). -/
def durSearchL : List Char → Bool
  | [] => false
  | c :: rest => durAt (c :: rest) || durSearchL rest

-- ── Other anchored patterns of extractor.py ───────────────────────────────

/-- Python `str.isupper` (ASCII model): at least one cased character and
every cased character uppercase. -/
def pyIsUpper (s : String) : Bool :=
  let cased := s.toList.filter isAsciiAlpha
  !cased.isEmpty && cased.all isAsciiUpper

/-- Character class `[A-Z\s\d\.\-]` of the resume-header pattern. -/
def capsHeaderClass (c : Char) : Bool :=
  isAsciiUpper c || isPyWs c || isAsciiDigit c || c = '.' || c = '-'

/-- Models `re.match(r'^[A-Z][A-Z\s\d\.\-]{8,}$', first)`. -/
def capsHeaderMatch (s : String) : Bool :=
  match s.toList with
  | c :: rest => isAsciiUpper c && rest.length ≥ 8 && rest.all capsHeaderClass
  | [] => false

/-- One line of the `re.MULTILINE` search `^\s*[•●\-\*]`: its first
non-whitespace character is a bullet.  (The multiline pattern's `\s*` may
cross newlines, but any such match puts the bullet at the start of its own
line up to whitespace, so the per-line reading is equivalent.) -/
def lineIsBullet (l : String) : Bool :=
  match l.toList.dropWhile isPyWs with
  | c :: _ => BULLET_CHARS.contains c
  | [] => false

/-- Models `re.search(r'^\s*[•●\-\*]', text, re.MULTILINE)`: `^` matches at the
string start and after each `'\n'`. -/
def hasBulletLine (text : String) : Bool := (splitNl text).any lineIsBullet

/-- Models `re.match(r'^[•●\-\*]', line)` of the resume extractor (no leading
whitespace allowed). -/
def bulletMatch (l : String) : Bool :=
  match l.toList with
  | c :: _ => BULLET_CHARS.contains c
  | [] => false

/-- Models `\b` against the preceding character (`none` = start of string). -/
def boundaryBefore : Option Char → Bool
  | none => true
  | some c => !isWordChar c

/-- Models `\b\d{4}\b` anchored where `prev` is the preceding character. -/
def year4At (prev : Option Char) (cs : List Char) : Bool :=
  boundaryBefore prev && (takeDigits4 cs).isSome && nonWordOrEnd (cs.drop 4)

/-- Models `re.search(r'\b\d{4}\b', ·)` (generic extractor's date filter). -/
def year4SearchAux (prev : Option Char) : List Char → Bool
  | [] => false
  | c :: rest => year4At prev (c :: rest) || year4SearchAux (some c) rest

def hasYear4 (s : String) : Bool := year4SearchAux none s.toList

/-- Models `(?:Jan|…|Dec|\d{4})` (case-sensitive, exact three-letter stems) at the
head, with `\b` after; used by the resume extractor's date-line filter. -/
def monthOrYear4At (prev : Option Char) (cs : List Char) : Bool :=
  boundaryBefore prev &&
    ((MONTHS3.any (fun m => startsWithL m.toList cs) && nonWordOrEnd (cs.drop 3))
      || ((takeDigits4 cs).isSome && nonWordOrEnd (cs.drop 4)))

def monthOrYear4SearchAux (prev : Option Char) : List Char → Bool
  | [] => false
  | c :: rest => monthOrYear4At prev (c :: rest) || monthOrYear4SearchAux (some c) rest

/-- Models `date_re.search(line[:20])` of the resume extractor (`\b(?:Jan|…|Dec|\d{4})\b`
over the first 20 characters). -/
def dateTokenIn20 (l : String) : Bool :=
  monthOrYear4SearchAux none (l.toList.take 20)

/-- Character class `[a-zA-Z\s&\.,\-]` of the generic company pattern. -/
def genCompanyClass (c : Char) : Bool :=
  isAsciiAlpha c || isPyWs c || c = '&' || c = '.' || c = ',' || c = '-'

/-- Models `re.match(r'^[A-Z][a-zA-Z\s&\.,\-]{2,40}$', line)`. -/
def genCompanyMatch (s : String) : Bool :=
  match s.toList with
  | c :: rest =>
      isAsciiUpper c && 2 ≤ rest.length && rest.length ≤ 40 &&
        rest.all genCompanyClass
  | [] => false

-- ── Field-name and schema-name constants ──────────────────────────────────

def kSchema : String := "schema"
def kJobTitle : String := "job_title"
def kCompany : String := "company"
def kEmploymentType : String := "employment_type"
def kDateRange : String := "date_range"
def kLocation : String := "location"
def kLinkedin : String := "linkedin"
def kResumeBlock : String := "resume_block"
def kGeneric : String := "generic"
def kUnknown : String := "Unknown"
def kEmpty : String := ""

def optToJ : Option String → JVal
  | some s => .str s
  | none => .null

-- ── Schema detector (extractor.py:144-191) ────────────────────────────────

/-- Models `detect_schema(text)`: classifies raw text into
linkedin / resume_block / generic, mirroring the source's precedence. -/
def detect_schema (text : String) : String :=
  let head := text.toList.take 300
  let lines := pyLines text
  match lines with
  | [] => kGeneric
  | first :: restLines =>
    let has_midot := head.any (fun c => c = '·' || c = '•')
    let has_duration := durSearchL text.toList
    let has_type_on_l2 :=
      match restLines with
      | l2 :: _ => EMPLOYMENT_TYPES.any (fun t => substrOf t (pyLower l2))
      | [] => false
    if has_midot && (has_duration || has_type_on_l2) then kLinkedin
    else
      let is_caps_header := pyIsUpper first || capsHeaderMatch first
      let date_on_line1 := (dateRangeSearch first).isSome
      if is_caps_header && (hasBulletLine text || date_on_line1) then kResumeBlock
      else if is_caps_header && (dateRangeSearch text).isSome then kResumeBlock
      else kGeneric

-- ── LinkedIn extractor (extractor.py:196-242) ─────────────────────────────

/-- Split a line on the dot characters of `LINKEDIN_SEPARATOR`
(`\s*[·•]\s*`): fragment boundaries eat the whitespace adjacent to each
dot (leading `\s*` of the separator trims the end of the fragment before
it, trailing `\s*` trims the start of the fragment after it); a line with
no dot is returned untouched, exactly as `re.split` does. -/
def splitDotsAux : List Char → List Char → List (List Char)
  | [], acc => [acc.reverse]
  | c :: rest, acc =>
      if c = '·' || c = '•' then acc.reverse :: splitDotsAux rest []
      else splitDotsAux rest (c :: acc)

def trimRightWs (cs : List Char) : List Char :=
  (cs.reverse.dropWhile isPyWs).reverse

def trimLeftWs (cs : List Char) : List Char := cs.dropWhile isPyWs

/-- Fragments after the first: trim both ends except that the final
fragment keeps its trailing whitespace. -/
def pySplitSepMid : List (List Char) → List String
  | [] => []
  | [f] => [(trimLeftWs f).asString]
  | f :: rest => (trimLeftWs (trimRightWs f)).asString :: pySplitSepMid rest

/-- Models `re.split(LINKEDIN_SEPARATOR, line)`. -/
def pySplitSep (line : String) : List String :=
  match splitDotsAux line.toList [] with
  | [] => []
  | [f] => [f.asString]
  | f :: rest => (trimRightWs f).asString :: pySplitSepMid rest

/-- Index of the first fragment whose lowercase form contains a known
employment-type token. -/
def li_findTypeIdx (parts : List String) : Option Nat :=
  parts.findIdx? (fun p => EMPLOYMENT_TYPES.any (fun t => substrOf t (pyLower p)))

def truthyOptStr : Option String → Bool
  | some s => s ≠ ""
  | none => false

/-- The company/employment-type loop of `extract_linkedin_job` over
`lines[1:]`, carrying the mutable `company` / `employment_type` state; the
outer loop stops as soon as `company` is truthy. -/
def li_scanCT : List String → Option String → Option String →
    Option String × Option String
  | [], c, e => (c, e)
  | line :: rest, c, e =>
      let parts := pySplitSep line
      match li_findTypeIdx parts with
      | some i =>
          let e' := some (pyStrip (parts.getD i kEmpty))
          let c' :=
            match parts.eraseIdx i with
            | [] => c
            | r0 :: _ => some (pyStrip r0)
          if truthyOptStr c' then (c', e') else li_scanCT rest c' e'
      | none => if truthyOptStr c then (c, e) else li_scanCT rest c e

/-- First line matching `DATE_RANGE_PAT`, with its index and groups. -/
def findDateLine : List String → Nat → Option (Nat × String × String)
  | [], _ => none
  | l :: rest, i =>
      match dateRangeSearch l with
      | some g => some (i, g)
      | none => findDateLine rest (i + 1)

/-- Models `extract_linkedin_job(text)` (extractor.py:196-242). -/
def extract_linkedin_job (text : String) : JVal :=
  let lines := pyLines text
  let job_title : Option String := lines.head?
  let ct := li_scanCT (lines.drop 1) none none
  let dateInfo := findDateLine lines 0
  let date_range : Option String := dateInfo.map (fun p => rangeText p.2)
  let location : Option String :=
    match dateInfo with
    | some (i, _) =>
        match lines.drop (i + 1) with
        | cand :: _ =>
            if cand.toList.contains '·' && cand.length < 60 then some cand
            else none
        | [] => none
    | none => none
  ofPairs [(kSchema, .str kLinkedin),
           (kJobTitle, optToJ job_title),
           (kCompany, optToJ ct.1),
           (kEmploymentType, optToJ ct.2),
           (kDateRange, optToJ date_range),
           (kLocation, optToJ location)]

-- ── Generic extractor (extractor.py:247-287) ──────────────────────────────

/-- Models `extract_generic_job(text)`. -/
def extract_generic_job (text : String) : JVal :=
  let lines := pyLines text
  let job_title : Option String :=
    match lines.find? (fun l => !hasYear4 l && l.length < 80) with
    | some t => some t
    | none => lines.head?
  let company : Option String :=
    lines.find? (fun l => genCompanyMatch l && !(job_title == some l))
  let employment_type : Option String :=
    EMPLOYMENT_TYPES.find? (fun t => substrOf t (pyLower text))
  let date_range : Option String := (dateRangeSearch text).map rangeText
  ofPairs [(kSchema, .str kGeneric),
           (kJobTitle, optToJ job_title),
           (kCompany, optToJ company),
           (kEmploymentType, optToJ employment_type),
           (kDateRange, optToJ date_range)]

-- ── Resume-block extractor (extractor.py:291-350) ─────────────────────────

/-- Index of the first `)` or `]` (the lazy `.*?[\)\]]` closer); `.` does
not match a newline, so the scan fails across one. -/
def findCloserIdx : List Char → Option Nat
  | [] => none
  | c :: rest =>
      if c = ')' || c = ']' then some 0
      else if c = '\n' then none
      else (findCloserIdx rest).map (· + 1)

/-- Length of a match of `\s*[\(\[].*?[\)\]]` anchored at the head of
`cs`, when one exists (whitespace run + opener + inner text + closer). -/
def tryBracketLen (cs : List Char) : Option {n : Nat // 0 < n} :=
  let ws := (spanP isPyWs cs).1
  match (spanP isPyWs cs).2 with
  | o :: r2 =>
      if o = '(' || o = '[' then
        (findCloserIdx r2).map (fun k => ⟨ws.length + 1 + (k + 1), by omega⟩)
      else none
  | [] => none

/-- Recursion core of the bracket-group deletion, structural on a fuel
that bounds the remaining length (each step consumes at least one
character, so fuel `cs.length` never runs out). -/
def subBracketsGo : Nat → List Char → List Char
  | 0, cs => cs
  | fuel + 1, cs =>
      match cs with
      | [] => []
      | c :: rest =>
          match tryBracketLen (c :: rest) with
          | some n => subBracketsGo fuel ((c :: rest).drop n.1)
          | none => c :: subBracketsGo fuel rest

/-- Models `re.sub(r'\s*[\(\[].*?[\)\]]', '', ·)`: delete every leftmost
non-overlapping bracketed group together with the whitespace before it. -/
def subBracketsL (cs : List Char) : List Char := subBracketsGo cs.length cs

/-- Does `\s*\d{4}` match at the head of `cs`?  (The tail `[\s\S]*$` of the
pattern always matches.) -/
def startsWsYear4 (cs : List Char) : Bool :=
  (takeDigits4 ((spanP isPyWs cs).2)).isSome

/-- Models `re.sub(r'\s*\d{4}[\s\S]*$', '', ·)`: cut everything from the leftmost
whitespace-then-four-digit-year onward. -/
def cutYearL : List Char → List Char
  | [] => []
  | c :: rest => if startsWsYear4 (c :: rest) then [] else c :: cutYearL rest

/-- The job-title scan of `extract_resume_block_job` over `lines[1:]`:
skip the recorded date line, stop at the first bulleted line, skip lines
with a date token in their first 20 characters, all-caps lines, and short
standalone employment-type tags. -/
def rb_titleScan : List String → Nat → Option Nat → Option String
  | [], _, _ => none
  | l :: rest, i, dli =>
      if dli = some i then rb_titleScan rest (i + 1) dli
      else if bulletMatch l then none
      else if dateTokenIn20 l then rb_titleScan rest (i + 1) dli
      else if pyIsUpper l then rb_titleScan rest (i + 1) dli
      else if (EMPLOYMENT_TYPES.any (fun t => substrOf t (pyLower l))) && l.length < 30 then
        rb_titleScan rest (i + 1) dli
      else some l

/-- Models `extract_resume_block_job(text)` (extractor.py:291-350). -/
def extract_resume_block_job (text : String) : JVal :=
  let lines := pyLines text
  let raw_company : String := lines.headD kEmpty
  let company : String :=
    pyStrip ((cutYearL (subBracketsL raw_company.toList)).asString)
  let dateInfo : Option (Nat × String × String) :=
    match lines with
    | [] => none
    | l0 :: _ =>
        match dateRangeSearch l0 with
        | some g => some (0, g)
        | none => findDateLine lines 0
  let date_range : Option String := dateInfo.map (fun p => rangeText p.2)
  let dli : Option Nat := dateInfo.map (fun p => p.1)
  let job_title : Option String := rb_titleScan (lines.drop 1) 1 dli
  let employment_type : Option String :=
    EMPLOYMENT_TYPES.find? (fun t => substrOf t (pyLower text))
  ofPairs [(kSchema, .str kResumeBlock),
           (kJobTitle, optToJ job_title),
           (kCompany, .str company),
           (kEmploymentType, optToJ employment_type),
           (kDateRange, optToJ date_range)]

-- ── Certificate extractor (extractor.py:14-119) ───────────────────────────

/-- Models `[line.strip() for line in text.split("\n") if line.strip()]`. -/
def certLines (text : String) : List String :=
  ((splitNl text).map pyStrip).filter (fun l => l ≠ "")

/-- The `certifies that` / `successfully completed` loops: the line after
the first marker line, provided a following line exists. -/
def findFollowing (marker : String) : List String → Option String
  | [] => none
  | l :: rest =>
      if substrOf marker (pyLower l) then
        match rest with
        | nxt :: _ => some nxt
        | [] => none
      else findFollowing marker rest

/-- Case-insensitive literal search returning the matched slice in its
original case (a capture group under `re.IGNORECASE`). -/
def ciFindSlice (pat : List Char) : List Char → Option String
  | [] => none
  | c :: rest =>
      if ciStartsL pat (c :: rest) then some (((c :: rest).take pat.length).asString)
      else ciFindSlice pat rest

def MONTHS_FULL : List String :=
  ["January", "February", "March", "April", "May", "June", "July",
   "August", "September", "October", "November", "December"]

/-- Models `\d{1,2},` with greedy day-number matching: two digits then the comma,
backtracking to one digit then the comma. -/
def dayComma : List Char → Option (List Char × List Char)
  | [] => none
  | d1 :: rest =>
      if isAsciiDigit d1 then
        match rest with
        | [] => none
        | d2 :: rest2 =>
            if isAsciiDigit d2 then
              match rest2 with
              | ',' :: r3 => some ([d1, d2, ','], r3)
              | _ => none
            else if d2 = ',' then some ([d1, ','], rest2)
            else none
      else none

/-- Models `(January|…|December)\s+\d{1,2},\s+\d{4}` anchored at the head of
`cs`; returns `group(0)` (the full month names are pairwise non-prefix, so
the alternation is deterministic). -/
def issueDateAt (cs : List Char) : Option String :=
  match MONTHS_FULL.find? (fun m => startsWithL m.toList cs) with
  | none => none
  | some m =>
      let r := cs.drop m.length
      let ws1 := (spanP isPyWs r).1
      let r2 := (spanP isPyWs r).2
      if ws1.isEmpty then none
      else
        match dayComma r2 with
        | none => none
        | some (dc, r3) =>
            let ws2 := (spanP isPyWs r3).1
            let r4 := (spanP isPyWs r3).2
            if ws2.isEmpty then none
            else
              match takeDigits4 r4 with
              | some (yr, _) => some ((m.toList ++ ws1 ++ dc ++ ws2 ++ yr).asString)
              | none => none

def issueDateSearchL : List Char → Option String
  | [] => none
  | c :: rest =>
      match issueDateAt (c :: rest) with
      | some s => some s
      | none => issueDateSearchL rest

/-- Models `https://[^\s]+` anchored at the head of `cs` (greedy non-whitespace
run, at least one character). -/
def urlAt (cs : List Char) : Option String :=
  if startsWithL ("https://".toList) cs then
    let body := (spanP (fun c => !isPyWs c) (cs.drop 8)).1
    if body.isEmpty then none else some (("https://".toList ++ body).asString)
  else none

def urlSearchL : List Char → Option String
  | [] => none
  | c :: rest =>
      match urlAt (c :: rest) with
      | some s => some s
      | none => urlSearchL rest

/-- Models `(\d+)\s+hours` anchored at the head of `cs`; returns `group(1)` (the
digit run; `\d` and `\s` are disjoint so the greedy run is exact). -/
def durationAt (cs : List Char) : Option String :=
  let (ds, r) := spanP isAsciiDigit cs
  if ds.isEmpty then none
  else
    let ws := (spanP isPyWs r).1
    let r2 := (spanP isPyWs r).2
    if ws.isEmpty then none
    else if startsWithL ("hours".toList) r2 then some ds.asString
    else none

def durationSearchL : List Char → Option String
  | [] => none
  | c :: rest =>
      match durationAt (c :: rest) with
      | some s => some s
      | none => durationSearchL rest

def kCertificateTitle : String := "certificate_title"
def kRecipientName : String := "recipient_name"
def kIssuer : String := "issuer"
def kIssuerSignatory : String := "issuer_signatory"
def kIssuerTitle : String := "issuer_title"
def kIssueDate : String := "issue_date"
def kCredentialType : String := "credential_type"
def kVerificationUrl : String := "verification_url"
def kProgramDuration : String := "program_duration"
def kQuincy : String := "Quincy Larson"
def kExecDir : String := "Executive Director"
def kDevCert : String := "Developer Certification"
def kCertifiesThat : String := "certifies that"
def kSuccessfullyCompleted : String := "successfully completed"

/-- Models `extract_certificate(text)` (extractor.py:14-119).  Every field starts
as `"Unknown"` and is overwritten only when its pattern matches; the
key order of the returned dict is the initialisation order. -/
def extract_certificate (text : String) : JVal :=
  let lines := certLines text
  let full_text := joinSpace lines
  let fcs := full_text.toList
  let issuer :=
    if substrOf ("freecodecamp") (pyLower full_text) then "freeCodeCamp"
    else kUnknown
  let recipient := (findFollowing kCertifiesThat lines).getD kUnknown
  let title := (findFollowing kSuccessfullyCompleted lines).getD kUnknown
  let credential := (ciFindSlice kDevCert.toList fcs).getD kUnknown
  let issue_date := (issueDateSearchL fcs).getD kUnknown
  let signatory := if containsSub kQuincy.toList fcs then kQuincy else kUnknown
  let sigTitle := if containsSub kExecDir.toList fcs then kExecDir else kUnknown
  let url := (urlSearchL fcs).getD kUnknown
  let duration :=
    match durationSearchL fcs with
    | some ds => ds ++ " hours"
    | none => kUnknown
  ofPairs [(kCertificateTitle, .str title),
           (kRecipientName, .str recipient),
           (kIssuer, .str issuer),
           (kIssuerSignatory, .str signatory),
           (kIssuerTitle, .str sigTitle),
           (kIssueDate, .str issue_date),
           (kCredentialType, .str credential),
           (kVerificationUrl, .str url),
           (kProgramDuration, .str duration)]

-- ── Orchestrator: errors, HTTP classification, retry (ocr.py) ─────────────

def kNeedsReview : String := "needs_review"
def kLowConfidenceFields : String := "low_confidence_fields"
def kProofType : String := "proof_type"
def kCacheHit : String := "cache_hit"
def kConfidence : String := "confidence"
def kContent : String := "content"
def kText : String := "text"

/-- The exception kinds of `extract_proof`: `PermanentAPIError`,
`TransientAPIError`, and any other (uncaught) Python exception. -/
inductive PyErr where
  | permanent (msg : String) : PyErr
  | transient (msg : String) : PyErr
  | other (msg : String) : PyErr
deriving DecidableEq

/-- The outcome of one HTTP attempt against the external service, as seen
by `_call_anthropic_api`: a response with a status code and a body, a
timeout, or a connection failure. -/
inductive HttpAttempt where
  | response (status : Nat) (body : String) : HttpAttempt
  | timeout : HttpAttempt
  | connError (msg : String) : HttpAttempt

/-- Classification of a single attempt by the body of
`_call_anthropic_api` (ocr.py:260-295). -/
inductive AttemptResult where
  | ok (v : JVal) : AttemptResult
  | transient (msg : String) : AttemptResult
  | permanent (msg : String) : AttemptResult
deriving DecidableEq

/-- One attempt of `_call_anthropic_api`: 429 and 5xx raise
`TransientAPIError`; 401 and 400 raise `PermanentAPIError`; any other
status in 400-599 raises through `raise_for_status` into the
`RequestException` handler (permanent); a status below 400 proceeds to
`response.json()`, whose decode failure is a `RequestException` subclass
(permanent); timeouts and connection failures are transient. -/
def classifyAttempt (jl : String → Option JVal) : HttpAttempt → AttemptResult
  | .response st body =>
      if st = 429 then .transient ("Rate limited")
      else if 500 ≤ st && st < 600 then .transient ("Server error")
      else if st = 401 then .permanent ("Authentication failed")
      else if st = 400 then .permanent ("Invalid request")
      else if 400 ≤ st && st < 600 then .permanent ("Request error")
      else
        match jl body with
        | some v => .ok v
        | none => .permanent ("Request error")
  | .timeout => .transient ("Request to Anthropic API timed out")
  | .connError m => .transient m

/-- Backoff of `wait_exponential(multiplier=1, min=2, max=10)` after the
`n`-th failed attempt: `multiplier * 2^n` clamped into `[min, max]`. -/
def waitAfter (n : Nat) : ℚ := max 2 (min ((2 : ℚ) ^ n) 10)

/-- The tenacity retry loop around `_call_anthropic_api`
(`stop_after_attempt(3)`, `retry_if_exception_type(TransientAPIError)`,
`reraise=True`): `fuel` is the number of retries still allowed (2 at the
first attempt), `n` the 1-based attempt number, `acc` the accumulated
backoff wait.  Returns (result, attempts made, total wait). -/
def runRetryGo (att : Nat → AttemptResult) : Nat → Nat → ℚ →
    Except PyErr JVal × Nat × ℚ
  | n, fuel, acc =>
      match att n, fuel with
      | .ok v, _ => (.ok v, n, acc)
      | .permanent m, _ => (.error (.permanent m), n, acc)
      | .transient m, 0 => (.error (.transient m), n, acc)
      | .transient _, fuel' + 1 => runRetryGo att (n + 1) fuel' (acc + waitAfter n)

def runRetry (att : Nat → AttemptResult) : Except PyErr JVal × Nat × ℚ :=
  runRetryGo att 1 2 0

-- ── Orchestrator: response handling and confidence gate (ocr.py) ──────────

/-- Array indexing `a[i]`. -/
def JVal.aidx : JVal → Nat → Option JVal
  | .acons hd _, 0 => some hd
  | .acons _ tl, n + 1 => tl.aidx n
  | _, _ => none

/-- Models `api_response["content"][0]["text"]` (ocr.py:330); any shape mismatch
is an uncaught KeyError/IndexError/TypeError. -/
def getRawText (resp : JVal) : Option String :=
  match resp.get kContent with
  | some content =>
      match content.aidx 0 with
      | some item =>
          match item.get kText with
          | some (.str s) => some s
          | _ => none
      | none => none
  | none => none

/-- The code-fence markers of `_parse_response`'s
`re.sub(r"^```json|^```|```$", "", raw.strip(), flags=re.MULTILINE)`. -/
def fenceJson : List Char :=
  [Char.ofNat 96, Char.ofNat 96, Char.ofNat 96, 'j', 's', 'o', 'n']

def fence3 : List Char := [Char.ofNat 96, Char.ofNat 96, Char.ofNat 96]

def atEndOrNl : List Char → Bool
  | [] => true
  | '\n' :: _ => true
  | _ => false

/-- Recursion core of the fence-stripping substitution, structural on a
fuel bounding the remaining length (every step consumes at least one
character).  At each position the alternatives are tried in pattern order
(` ```json ` at line start, ` ``` ` at line start, ` ``` ` before a line
end); `atStart` tracks whether the current position follows a newline or
is the string start (`re.MULTILINE`). -/
def stripFencesGo : Nat → List Char → Bool → List Char
  | 0, cs, _ => cs
  | fuel + 1, cs, atStart =>
      match cs with
      | [] => []
      | c :: rest =>
          if atStart && startsWithL fenceJson (c :: rest) then
            stripFencesGo fuel ((c :: rest).drop 7) false
          else if atStart && startsWithL fence3 (c :: rest) then
            stripFencesGo fuel ((c :: rest).drop 3) false
          else if startsWithL fence3 (c :: rest) && atEndOrNl ((c :: rest).drop 3) then
            stripFencesGo fuel ((c :: rest).drop 3) false
          else c :: stripFencesGo fuel rest (c = '\n')

def stripFencesAux (cs : List Char) (atStart : Bool) : List Char :=
  stripFencesGo cs.length cs atStart

/-- Models `_parse_response(raw)` (ocr.py:232-238): strip fences, strip, parse;
a JSON decode failure is a `PermanentAPIError`. -/
def parse_response (jl : String → Option JVal) (raw : String) :
    Except PyErr JVal :=
  let cleaned := pyStrip ((stripFencesAux (pyStrip raw).toList true).asString)
  match jl cleaned with
  | some v => .ok v
  | none => .error (.permanent ("Model returned invalid JSON"))

/-- Models `(score or 0) < threshold` for threshold 0.5: a falsy score compares
as 0 (flagged); a truthy number compares exactly; a truthy bool is the
integer 1; any other truthy value raises TypeError (`none`). -/
def scoreLtHalf (v : JVal) : Option Bool :=
  if pyFalsy v then some true
  else
    match v with
    | .num q => some (q < halfQ)
    | .bool _ => some false
    | _ => none

/-- Models `result.get("confidence") or {}` followed by `.items()`: an absent or
falsy value yields no entries; a truthy non-dict raises (`none`). -/
def confScores (result : JVal) : Option (List (String × JVal)) :=
  match result.get kConfidence with
  | none => some []
  | some v =>
      if pyFalsy v then some []
      else
        match v with
        | .ocons k w tl => some ((JVal.ocons k w tl).toPairs)
        | _ => none

/-- The comprehension of `_low_confidence_fields` (ocr.py:241-244),
left-to-right, propagating a TypeError from the comparison. -/
def lowFieldsGo : List (String × JVal) → Option (List String)
  | [] => some []
  | (f, s) :: rest =>
      match scoreLtHalf s with
      | none => none
      | some b =>
          match lowFieldsGo rest with
          | none => none
          | some r => some (if b then f :: r else r)

/-- Models `_low_confidence_fields(result)` (threshold 0.5). -/
def low_confidence_fields (result : JVal) : Option (List String) :=
  match confScores result with
  | none => none
  | some scores => lowFieldsGo scores

/-- Steps ocr.py:333-336: compute the flagged fields, then set
`needs_review`, `low_confidence_fields` and `proof_type` on the parsed
dict.  A non-dict parse result or a TypeError inside the comparison is an
uncaught exception. -/
def annotateResult (parsed : JVal) (proof_type : String) : Except PyErr JVal :=
  match parsed with
  | .onil | .ocons _ _ _ =>
      match low_confidence_fields parsed with
      | none => .error (.other ("TypeError comparing confidence value"))
      | some low =>
          .ok (((parsed.set kNeedsReview (.bool (!low.isEmpty))).set
                  kLowConfidenceFields (ofStrList low)).set
                  kProofType (.str proof_type))
  | _ => .error (.other ("model response is not a JSON object"))

-- ── Orchestrator: extract_proof and the cache decorator (ocr.py) ──────────

def PROMPT_KEYS : List String :=
  ["job", "certificate", "skill", "milestone", "contribution"]

/-- The declared data-field set of each proof type, transcribed from the
JSON templates in `PROMPTS` (ocr.py:16-142). -/
def declaredFields : String → List String
  | "job" => ["job_title", "company", "employment_type",
              "date_range", "location", "job_category"]
  | "certificate" => ["certificate_title", "issuer", "completion_date",
                      "credential_type", "program_category"]
  | "skill" => ["skill_name", "skill_category", "proficiency_level",
                "evidence_type"]
  | "milestone" => ["milestone_type", "issuer", "date", "milestone_summary"]
  | "contribution" => ["contribution_type", "platform_name", "date",
                       "title", "url"]
  | _ => []

def ALLOWED_MIME : List String :=
  ["image/jpeg", "image/png", "image/gif", "image/webp", "application/pdf"]

/-- Models `filename.rsplit(".", 1)[-1].lower() if "." in filename else ""`. -/
def extFromFilename (filename : String) : String :=
  if filename.toList.contains '.' then
    pyLower (((filename.toList.reverse.takeWhile (fun c => c ≠ '.')).reverse).asString)
  else kEmpty

/-- Models `_resolve_mime_type` (ocr.py:191-204): keep an accepted MIME type,
else infer from the filename extension, else default to jpeg. -/
def resolve_mime_type (mime_type : String) (filename : String) : String :=
  if ALLOWED_MIME.contains mime_type then mime_type
  else
    match extFromFilename filename with
    | "jpg" => "image/jpeg"
    | "jpeg" => "image/jpeg"
    | "png" => "image/png"
    | "gif" => "image/gif"
    | "webp" => "image/webp"
    | "pdf" => "application/pdf"
    | _ => "image/jpeg"

/-- Models `not ANTHROPIC_API_KEY`: unset or empty. -/
def keyFalsy : Option String → Bool
  | none => true
  | some s => s = ""

/-- The body of `extract_proof` (ocr.py:298-338) inside the cache
decorator: credential and proof-type validation, MIME resolution, the
retried API call, response parsing, and confidence annotation.  The
network is abstracted by `att`, the HTTP outcome of each attempt
(1-indexed); the request payload (base64 data, prompt text) influences no
observable modelled here.  Returns the result or error together with the
number of attempts made and the total backoff wait. -/
def extractInner (jl : String → Option JVal) (apiKey : Option String)
    (att : Nat → HttpAttempt) (proof_type : String)
    (mime_type : String) (filename : String) :
    Except PyErr JVal × Nat × ℚ :=
  if keyFalsy apiKey then
    (.error (.permanent ("ANTHROPIC_API_KEY environment variable is not set.")), 0, 0)
  else if !PROMPT_KEYS.contains proof_type then
    (.error (.permanent ("Invalid proof_type")), 0, 0)
  else
    let _mime := resolve_mime_type mime_type filename
    match runRetry (fun n => classifyAttempt jl (att n)) with
    | (.error e, n, w) => (.error e, n, w)
    | (.ok apiResp, n, w) =>
        match getRawText apiResp with
        | none => (.error (.other ("response content shape")), n, w)
        | some raw =>
            match parse_response jl raw with
            | .error e => (.error e, n, w)
            | .ok parsed =>
                match annotateResult parsed proof_type with
                | .error e => (.error e, n, w)
                | .ok r => (.ok r, n, w)

/-- Models `extract_proof` as exported: the `@cached` wrapper (ocr.py:154-170)
around `extractInner`.  The wrapper first hashes the bytes and consults
the cache — before any validation; a hit returns a copy of the stored
entry with `cache_hit=True` and makes no attempt; a miss runs the body,
sets `cache_hit=False`, stores a copy, and returns.  Value semantics model
the `.copy()` calls; the aliasing of nested values under the shallow copy
is modelled separately by the heap model below.  Returns (result or
error, updated cache, attempts made). -/
def extract_proof (sha : List Nat → String) (jl : String → Option JVal)
    (apiKey : Option String) (att : Nat → HttpAttempt)
    (cache : List (String × JVal)) (file_bytes : List Nat)
    (proof_type : String) (mime_type : String) (filename : String) :
    Except PyErr JVal × List (String × JVal) × Nat :=
  let cache_key := sha file_bytes
  match alookup cache_key cache with
  | some r => (.ok (r.set kCacheHit (.bool true)), cache, 0)
  | none =>
      match extractInner jl apiKey att proof_type mime_type filename with
      | (.error e, n, _) => (.error e, cache, n)
      | (.ok r, n, _) =>
          let r' := r.set kCacheHit (.bool false)
          (.ok r', aset cache_key r' cache, n)

-- ── Result validator (views.py:11-16, 123-124) ────────────────────────────

def hexDigit (n : Nat) : Char :=
  if n < 10 then Char.ofNat (48 + n) else Char.ofNat (87 + n)

def toHex4 (n : Nat) : String :=
  [hexDigit (n / 4096 % 16), hexDigit (n / 256 % 16),
   hexDigit (n / 16 % 16), hexDigit (n % 16)].asString

/-- Models `json.dumps` string escaping with the default `ensure_ascii=True`:
quote, backslash and the named control escapes, `\u00XX` for other
controls, `\uXXXX` (surrogate pairs beyond the BMP) for non-ASCII. -/
def escJChar (c : Char) : String :=
  if c = '"' then "\\\""
  else if c = '\\' then "\\\\"
  else if c = '\n' then "\\n"
  else if c = '\t' then "\\t"
  else if c = '\r' then "\\r"
  else if c.toNat = 8 then "\\b"
  else if c.toNat = 12 then "\\f"
  else if c.toNat < 32 || c.toNat ≥ 127 then
    if c.toNat < 65536 then "\\u" ++ toHex4 c.toNat
    else
      let n := c.toNat - 65536
      "\\u" ++ toHex4 (55296 + n / 1024) ++ "\\u" ++ toHex4 (56320 + n % 1024)
  else String.singleton c

def jsonEscape (s : String) : String := String.join (s.toList.map escJChar)

/-- Number serialisation.  Python's float `repr` is abstracted by a fixed
deterministic rendering of the exact rational; no theorem below depends
on the rendering, only on its being a function of the value. -/
def jnum (q : ℚ) : String :=
  if q.den = 1 then toString q.num else toString q.num ++ "/" ++ toString q.den

/-- Stable insertion of a (key, rendered value) pair into a key-sorted
list — `sorted` used by `json.dumps(…, sort_keys=True)`. -/
def insPair (a : String × String) : List (String × String) → List (String × String)
  | [] => [a]
  | b :: bs => if a.1 ≤ b.1 then a :: b :: bs else b :: insPair a bs

def sortPairs : List (String × String) → List (String × String)
  | [] => []
  | a :: as => insPair a (sortPairs as)

/-- Models `"key": value` rendering of an object body with `, ` separators. -/
def joinPairs : List (String × String) → String
  | [] => ""
  | [(k, v)] => "\"" ++ jsonEscape k ++ "\": " ++ v
  | (k, v) :: rest => "\"" ++ jsonEscape k ++ "\": " ++ v ++ ", " ++ joinPairs rest

mutual

/-- Models `json.dumps(·, sort_keys=True)` with default separators; object keys
are sorted lexicographically at every level. -/
def jdump : JVal → String
  | .null => "null"
  | .bool true => "true"
  | .bool false => "false"
  | .num q => jnum q
  | .str s => "\"" ++ jsonEscape s ++ "\""
  | .anil => "[]"
  | .acons hd tl => "[" ++ jdump hd ++ jdumpArrTail tl ++ "]"
  | .onil => "\x7b\x7d"
  | .ocons k v tl =>
      "\x7b" ++ joinPairs (sortPairs ((k, jdump v) :: jdumpPairs tl)) ++ "\x7d"

/-- Remaining array items, each preceded by `, `. -/
def jdumpArrTail : JVal → String
  | .acons hd tl => ", " ++ jdump hd ++ jdumpArrTail tl
  | _ => ""

/-- (key, rendered value) pairs of an object chain. -/
def jdumpPairs : JVal → List (String × String)
  | .ocons k v tl => (k, jdump v) :: jdumpPairs tl
  | _ => []

end

/-- The metadata keys dropped by `hash_result`'s comprehension
(views.py:13-14). -/
def EXCLUDED_KEYS : List String :=
  ["needs_review", "low_confidence_fields", "confidence", "cache_hit",
   "proof_type"]

/-- Models `clean = {k: v for k, v in data.items() if k not in [...]}`. -/
def cleanPairs (r : JVal) : List (String × JVal) :=
  r.toPairs.filter (fun kv => !EXCLUDED_KEYS.contains kv.1)

/-- Models `json.dumps(clean, sort_keys=True)`. -/
def dumpsSorted (r : JVal) : String :=
  "\x7b" ++
    joinPairs (sortPairs ((cleanPairs r).map (fun kv => (kv.1, jdump kv.2)))) ++
    "\x7d"

/-- Models `hash_result(data)` (views.py:11-16): SHA-256 of the canonical
serialisation; `sha` is the digest function. -/
def hash_result (sha : String → String) (r : JVal) : String :=
  sha (dumpsSorted r)

/-- The hash step of `ExtractView.post` (views.py:124):
`hash_result(result) if not result["needs_review"] else None`.
The outer `none` is the KeyError when `needs_review` is absent. -/
def viewValidationHash (sha : String → String) (r : JVal) :
    Option (Option String) :=
  match r.get kNeedsReview with
  | none => none
  | some v => some (if pyFalsy v then some (hash_result sha r) else none)

-- ── Heap model of the cache-hit shallow copy (ocr.py:160-163) ─────────────

/-- A value slot of a mutable Python object: an immutable value, or a
reference to another heap object (Python aliasing). -/
inductive PyVal where
  | imm (v : JVal) : PyVal
  | mref (addr : Nat) : PyVal
deriving DecidableEq

/-- A mutable Python object: a dict or a list. -/
inductive PyObj where
  | dict (entries : List (String × PyVal)) : PyObj
  | list (items : List PyVal) : PyObj
deriving DecidableEq

/-- A heap of mutable objects, with a bump allocator. -/
structure Heap where
  mem : List (Nat × PyObj)
  next : Nat
deriving DecidableEq

def Heap.get (h : Heap) (a : Nat) : Option PyObj := alookup a h.mem

def Heap.put (h : Heap) (a : Nat) (o : PyObj) : Heap :=
  ⟨aset a o h.mem, h.next⟩

def Heap.alloc (h : Heap) (o : PyObj) : Heap × Nat :=
  (⟨aset h.next o h.mem, h.next + 1⟩, h.next)

/-- Every allocated address is below the allocator cursor. -/
def Heap.wf (h : Heap) : Prop := ∀ p ∈ h.mem, p.1 < h.next

/-- The entry list of the dict at `a` (empty if `a` is not a dict). -/
def dictEntries (h : Heap) (a : Nat) : List (String × PyVal) :=
  match h.get a with
  | some (.dict es) => es
  | _ => []

/-- Models `d[k]` on the dict at address `a`. -/
def heapDictGet (h : Heap) (a : Nat) (k : String) : Option PyVal :=
  alookup k (dictEntries h a)

/-- Models `d[k] = v` on the dict at address `a` (no-op on a non-dict). -/
def heapDictSet (h : Heap) (a : Nat) (k : String) (v : PyVal) : Heap :=
  match h.get a with
  | some (.dict es) => h.put a (.dict (aset k v es))
  | _ => h

/-- The cache-hit path of the `cached` wrapper:
`result = _CACHE[key].copy(); result["cache_hit"] = True; return result`.
`dict.copy()` is a *shallow* copy: a fresh dict object whose entries are
the same slots — references among them included. -/
def cacheHitCopy (h : Heap) (stored : Nat) : Heap × Nat :=
  let al := h.alloc (.dict (dictEntries h stored))
  (heapDictSet al.1 al.2 kCacheHit (.imm (.bool true)), al.2)

-- ── Concrete instantiations used by counterexamples and witnesses ─────────

/-- A cached extraction result living at address 0: its `confidence`
entry references the dict at address 1, its `low_confidence_fields` the
list at address 2. -/
def c7heap : Heap :=
  ⟨[(0, .dict [(kJobTitle, .imm (.str ("Engineer"))),
               (kConfidence, .mref 1),
               (kLowConfidenceFields, .mref 2),
               (kNeedsReview, .imm (.bool false)),
               (kCacheHit, .imm (.bool false))]),
    (1, .dict [(kJobTitle, .imm (.num q910))]),
    (2, .list [])],
   3⟩

def c1pt : String := "skill"

/-- A parsed model response for proof type `skill` whose confidence map
omits the declared field `evidence_type` and scores the present fields
0.9. -/
def c1parsed : JVal :=
  ofPairs [("skill_name", .str ("Rust")),
           ("skill_category", .str ("Programming")),
           ("proficiency_level", .str ("Advanced")),
           ("evidence_type", .null),
           (kConfidence,
             ofPairs [("skill_name", .num q910),
                      ("skill_category", .num q910),
                      ("proficiency_level", .num q910)])]

/-- The service envelope `{"content": [{"text": "PAYLOAD"}]}`. -/
def cEnv : JVal :=
  .ocons kContent (.acons (.ocons kText (.str ("PAYLOAD")) .onil) .anil) .onil

/-- A concrete `json.loads` oracle: the HTTP body `"ENV"` parses to the
envelope, the model text `"PAYLOAD"` to `c1parsed`. -/
def c1jl : String → Option JVal := fun s =>
  if s = "ENV" then some cEnv
  else if s = "PAYLOAD" then some c1parsed
  else none

/-- Every attempt returns HTTP 200 with body `"ENV"`. -/
def cAtt200 : Nat → HttpAttempt := fun _ => .response 200 ("ENV")

def cSha : List Nat → String := fun _ => "K"

def cKey : Option String := some ("sk-test")

def cMime : String := "image/jpeg"

def cFname : String := "proof.jpg"

def cBytes : List Nat := [1, 2, 3]

/-- Models `result["needs_review"]` read as a strict boolean. -/
def getBoolTrue : Option JVal → Bool
  | some (.bool true) => true
  | _ => false

/-- The claim's reading of a low-confidence field (C1): the declared
field's confidence value is below 0.5, or is missing or null (absence
treated as zero).  This definition follows the claim's words, for
comparison against `low_confidence_fields` computed by the code. -/
def specConfLow (parsed : JVal) (f : String) : Bool :=
  match parsed.get kConfidence with
  | some conf =>
      match conf.get f with
      | some (.num q) => q < halfQ
      | some .null => true
      | some _ => false
      | none => true
  | none => true

def isObj : JVal → Bool
  | .onil => true
  | .ocons _ _ _ => true
  | _ => false

def isStrOrNull : JVal → Bool
  | .str _ => true
  | .null => true
  | _ => false

def isStrVal : JVal → Bool
  | .str _ => true
  | _ => false

def cBody : String := "ENV"

def c3pt : String := "bogus"

/-- A previously cached result for the bytes hashed to `"K"`. -/
def c3stored : JVal :=
  ofPairs [(kJobTitle, .str ("X")), (kCacheHit, .bool false)]

def c3cache : List (String × JVal) := [("K", c3stored)]

/-- The result of a successful first extraction of `cBytes` under the
`c1jl` oracle (the annotated `c1parsed` with `cache_hit=False`). -/
def c6r1 : JVal :=
  ofPairs [("skill_name", .str ("Rust")),
           ("skill_category", .str ("Programming")),
           ("proficiency_level", .str ("Advanced")),
           ("evidence_type", .null),
           (kConfidence,
             ofPairs [("skill_name", .num q910),
                      ("skill_category", .num q910),
                      ("proficiency_level", .num q910)]),
           (kNeedsReview, .bool false),
           (kLowConfidenceFields, .anil),
           (kProofType, .str c1pt),
           (kCacheHit, .bool false)]

def c6cache : List (String × JVal) := [("K", c6r1)]

/-- Claim C5 as stated: per-attempt classification with 429/5xx and
network failures transient, 401/400 permanent, and *every other non-2xx
status* permanent.  (The last clause is the one the code refutes.) -/
def claimC5 : Prop :=
  ∀ (jl : String → Option JVal) (st : Nat) (body : String),
    (st = 429 ∨ (500 ≤ st ∧ st < 600) →
      ∃ m, classifyAttempt jl (.response st body) = .transient m) ∧
    (st = 401 ∨ st = 400 →
      ∃ m, classifyAttempt jl (.response st body) = .permanent m) ∧
    (∃ m, classifyAttempt jl .timeout = .transient m) ∧
    (∀ m', ∃ m, classifyAttempt jl (.connError m') = .transient m) ∧
    (¬(200 ≤ st ∧ st < 300) ∧ st ≠ 429 ∧ ¬(500 ≤ st ∧ st < 600) ∧
        st ≠ 401 ∧ st ≠ 400 →
      ∃ m, classifyAttempt jl (.response st body) = .permanent m)

/-- A well-formed object chain: `ocons` links ending in `onil`.  Every
Python dict is modelled by such a chain; the constructors admit malformed
chains (e.g. an `ocons` ending in `null`) that no Python value produces,
so hypotheses below restrict to proper chains where needed. -/
def isObjChain : JVal → Bool
  | .onil => true
  | .ocons _ _ tl => isObjChain tl
  | _ => false

/-- A faithful `json.loads` oracle only produces well-formed object
chains wherever it produces objects at top level. -/
def jlWf (jl : String → Option JVal) : Prop :=
  ∀ s v, jl s = some v → isObjChain v = true ∨ isObj v = false

/-- Decidable equality on `Except`, needed to evaluate the pipeline's
results in concrete witnesses. -/
instance exceptDecEq {ε α : Type} [DecidableEq ε] [DecidableEq α] :
    DecidableEq (Except ε α) := fun a b =>
  match a, b with
  | .ok x, .ok y => decidable_of_iff (x = y) (by simp)
  | .error x, .error y => decidable_of_iff (x = y) (by simp)
  | .ok _, .error _ => isFalse (by simp)
  | .error _, .ok _ => isFalse (by simp)

-- ═══════════════════════════ Theorems ════════════════════════════════════


-- ── Association list and dict lemmas ──────────────────────────────────────

theorem alookup_aset_same {κ α : Type} [DecidableEq κ] (k : κ) (v : α) :
    ∀ l : List (κ × α), alookup k (aset k v l) = some v := by
  intro l
  induction l with
  | nil => simp [aset, alookup]
  | cons p rest ih =>
      obtain ⟨k', v'⟩ := p
      by_cases h : k' = k
      · simp [aset, alookup, h]
      · simp [aset, alookup, h, ih]

theorem alookup_aset_ne {κ α : Type} [DecidableEq κ] (k k' : κ) (v : α)
    (h : k' ≠ k) :
    ∀ l : List (κ × α), alookup k' (aset k v l) = alookup k' l := by
  intro l
  induction l with
  | nil => simp [aset, alookup, Ne.symm h]
  | cons p rest ih =>
      obtain ⟨k₀, v₀⟩ := p
      by_cases hk : k₀ = k
      · subst hk
        simp [aset, alookup, Ne.symm h]
      · simp [aset, alookup, hk, ih]

theorem jget_eq_alookup (v : JVal) (k : String) :
    v.get k = alookup k v.toPairs := by
  induction v with
  | ocons k₀ v₀ tl _ ihtl =>
      by_cases h : k₀ = k
      · simp [JVal.get, JVal.toPairs, alookup, h]
      · simp [JVal.get, JVal.toPairs, alookup, h, ihtl]
  | _ => simp [JVal.get, JVal.toPairs, alookup]

theorem isObjChain_set (v : JVal) (k : String) (x : JVal)
    (h : isObjChain v = true) : isObjChain (v.set k x) = true := by
  induction v with
  | onil => simp [JVal.set, isObjChain]
  | ocons k₀ v₀ tl _ ihtl =>
      by_cases hk : k₀ = k
      · simpa [JVal.set, hk, isObjChain] using h
      · simp only [isObjChain] at h
        simp [JVal.set, hk, isObjChain, ihtl h]
  | _ => simp [isObjChain] at h

theorem isObj_of_chain (v : JVal) (h : isObjChain v = true) :
    isObj v = true := by
  cases v <;> simp_all [isObjChain, isObj]

theorem jget_set_same (v : JVal) (k : String) (x : JVal)
    (h : isObjChain v = true) : (v.set k x).get k = some x := by
  induction v with
  | onil => simp [JVal.set, JVal.get]
  | ocons k₀ v₀ tl _ ihtl =>
      by_cases hk : k₀ = k
      · simp [JVal.set, JVal.get, hk]
      · simp only [isObjChain] at h
        simp [JVal.set, JVal.get, hk, ihtl h]
  | _ => simp [isObjChain] at h

theorem jget_set_ne (v : JVal) (k k' : String) (x : JVal)
    (h : k' ≠ k) : (v.set k x).get k' = v.get k' := by
  induction v with
  | onil => simp [JVal.set, JVal.get, Ne.symm h]
  | ocons k₀ v₀ tl _ ihtl =>
      by_cases hk : k₀ = k
      · subst hk
        simp [JVal.set, JVal.get, Ne.symm h]
      · simp [JVal.set, JVal.get, hk, ihtl]
  | _ => simp [JVal.set, JVal.get]

theorem toPairs_ofPairs : ∀ l : List (String × JVal), (ofPairs l).toPairs = l
  | [] => by simp [ofPairs, JVal.toPairs]
  | (k, v) :: rest => by simp [ofPairs, JVal.toPairs, toPairs_ofPairs rest]

-- ── Annotation lemmas (ocr.py:333-336) ────────────────────────────────────

theorem annotate_ok (parsed : JVal) (pt : String) (r : JVal)
    (hc : isObjChain parsed = true)
    (h : annotateResult parsed pt = .ok r) :
    ∃ low, low_confidence_fields parsed = some low ∧
      r = ((parsed.set kNeedsReview (.bool (!low.isEmpty))).set
             kLowConfidenceFields (ofStrList low)).set kProofType (.str pt) ∧
      isObjChain r = true := by
  cases hl : low_confidence_fields parsed with
  | none =>
      exfalso
      cases parsed <;> simp_all [annotateResult, isObjChain]
  | some low =>
      have hr : r = ((parsed.set kNeedsReview (.bool (!low.isEmpty))).set
          kLowConfidenceFields (ofStrList low)).set kProofType (.str pt) := by
        cases parsed <;> simp_all [annotateResult, isObjChain]
      refine ⟨low, rfl, hr, ?_⟩
      rw [hr]
      exact isObjChain_set _ _ _ (isObjChain_set _ _ _ (isObjChain_set _ _ _ hc))

theorem lowFieldsGo_ne_nil :
    ∀ (scores : List (String × JVal)) (l : List String),
      lowFieldsGo scores = some l →
      (l ≠ [] ↔ ∃ p ∈ scores, scoreLtHalf p.2 = some true) := by
  intro scores
  induction scores with
  | nil =>
      intro l h
      simp [lowFieldsGo] at h
      subst h
      simp
  | cons p rest ih =>
      intro l h
      obtain ⟨f, sv⟩ := p
      cases hs : scoreLtHalf sv with
      | none => simp [lowFieldsGo, hs] at h
      | some b =>
          cases hr : lowFieldsGo rest with
          | none => simp [lowFieldsGo, hs, hr] at h
          | some r =>
              simp only [lowFieldsGo, hs, hr] at h
              cases b with
              | true =>
                  simp only [if_true] at h
                  injection h with h2
                  subst h2
                  constructor
                  · intro _
                    exact ⟨(f, sv), by simp, hs⟩
                  · intro _
                    simp
              | false =>
                  simp only [Bool.false_eq_true, if_false] at h
                  injection h with h2
                  subst h2
                  constructor
                  · intro hne
                    obtain ⟨q, hq, hq2⟩ := (ih r hr).mp hne
                    exact ⟨q, by simp [hq], hq2⟩
                  · intro hex
                    obtain ⟨q, hq, hq2⟩ := hex
                    rcases List.mem_cons.mp hq with hq | hq
                    · subst hq
                      rw [hs] at hq2
                      simp at hq2
                    · exact (ih r hr).mpr ⟨q, hq, hq2⟩

-- ── C1: the needs_review / low_confidence_fields invariant ────────────────

/-- C1, counterexample.  The claim says `needs_review` is true iff some
*declared field of the proof type* has confidence below 0.5 **or
missing/null**.  The code iterates only over the keys present in the
response's `confidence` map, so a declared field that is entirely absent
from that map is never flagged: for proof type `skill` and a response
whose confidence map scores three of the four declared fields 0.9 and
omits `evidence_type`, `extract_proof` returns `needs_review = False`
and no flagged fields, while the claim requires `needs_review = True`. -/
theorem C1_counterexample :
    (extract_proof cSha c1jl cKey cAtt200 [] cBytes c1pt cMime cFname).1 =
      .ok c6r1 ∧
    c6r1.get kNeedsReview = some (.bool false) ∧
    c6r1.get kLowConfidenceFields = some .anil ∧
    ("evidence_type") ∈ declaredFields c1pt ∧
    specConfLow c1parsed ("evidence_type") = true := by
  decide

/-- C1 (amended): for every result produced by the annotation step of
`extract_proof` (from a well-formed parsed response), `needs_review` is
true iff `low_confidence_fields` is non-empty iff at least one *entry of
the response's confidence map* has a falsy (null/0/empty) value or a
numeric value below 0.5.  Declared fields absent from the confidence map
are not flagged (that is the correction to the claim). -/
theorem C1_low_confidence_invariant :
    ∀ (parsed : JVal) (pt : String) (r : JVal),
      isObjChain parsed = true →
      annotateResult parsed pt = .ok r →
      ∃ (low : List String) (scores : List (String × JVal)),
        confScores parsed = some scores ∧
        low_confidence_fields parsed = some low ∧
        r.get kNeedsReview = some (.bool (!low.isEmpty)) ∧
        r.get kLowConfidenceFields = some (ofStrList low) ∧
        (r.get kNeedsReview = some (.bool true) ↔ low ≠ []) ∧
        (low ≠ [] ↔ ∃ p ∈ scores, scoreLtHalf p.2 = some true) := by
  intro parsed pt r hc h
  obtain ⟨low, hl, hr, _⟩ := annotate_ok parsed pt r hc h
  cases hsc : confScores parsed with
  | none => simp [low_confidence_fields, hsc] at hl
  | some scores =>
      have hgo : lowFieldsGo scores = some low := by
        simpa [low_confidence_fields, hsc] using hl
      have hnr : r.get kNeedsReview = some (.bool (!low.isEmpty)) := by
        rw [hr, jget_set_ne _ _ _ _ (by decide), jget_set_ne _ _ _ _ (by decide),
          jget_set_same _ _ _ hc]
      have hlcf : r.get kLowConfidenceFields = some (ofStrList low) := by
        rw [hr, jget_set_ne _ _ _ _ (by decide),
          jget_set_same _ _ _ (isObjChain_set _ _ _ hc)]
      refine ⟨low, scores, rfl, hl, hnr, hlcf, ?_, lowFieldsGo_ne_nil scores low hgo⟩
      rw [hnr]
      constructor
      · intro hx
        have : (!low.isEmpty) = true := by
          have := Option.some_inj.mp hx
          cases hb : low.isEmpty <;> simp_all
        simpa using this
      · intro hx
        have : (!low.isEmpty) = true := by simpa using hx
        rw [this]

/-- C1 witness: the amended invariant instantiated at the concrete
response `c1parsed` for proof type `skill`. -/
theorem C1_witness :
    ∃ (low : List String) (scores : List (String × JVal)),
      confScores c1parsed = some scores ∧
      low_confidence_fields c1parsed = some low ∧
      JVal.get (ofPairs [("skill_name", .str ("Rust")),
           ("skill_category", .str ("Programming")),
           ("proficiency_level", .str ("Advanced")),
           ("evidence_type", .null),
           (kConfidence,
             ofPairs [("skill_name", .num q910),
                      ("skill_category", .num q910),
                      ("proficiency_level", .num q910)]),
           (kNeedsReview, .bool false),
           (kLowConfidenceFields, .anil),
           (kProofType, .str c1pt)]) kNeedsReview = some (.bool (!low.isEmpty)) ∧
      JVal.get (ofPairs [("skill_name", .str ("Rust")),
           ("skill_category", .str ("Programming")),
           ("proficiency_level", .str ("Advanced")),
           ("evidence_type", .null),
           (kConfidence,
             ofPairs [("skill_name", .num q910),
                      ("skill_category", .num q910),
                      ("proficiency_level", .num q910)]),
           (kNeedsReview, .bool false),
           (kLowConfidenceFields, .anil),
           (kProofType, .str c1pt)]) kLowConfidenceFields = some (ofStrList low) ∧
      (JVal.get (ofPairs [("skill_name", .str ("Rust")),
           ("skill_category", .str ("Programming")),
           ("proficiency_level", .str ("Advanced")),
           ("evidence_type", .null),
           (kConfidence,
             ofPairs [("skill_name", .num q910),
                      ("skill_category", .num q910),
                      ("proficiency_level", .num q910)]),
           (kNeedsReview, .bool false),
           (kLowConfidenceFields, .anil),
           (kProofType, .str c1pt)]) kNeedsReview = some (.bool true) ↔ low ≠ []) ∧
      (low ≠ [] ↔ ∃ p ∈ scores, scoreLtHalf p.2 = some true) :=
  C1_low_confidence_invariant c1parsed c1pt _ (by decide) (by decide)

-- ── Sorting lemmas for the canonical serialisation ────────────────────────

theorem insPair_perm (a : String × String) (l : List (String × String)) :
    (insPair a l).Perm (a :: l) := by
  induction l with
  | nil => simp [insPair]
  | cons b bs ih =>
      by_cases h : a.1 ≤ b.1
      · simp [insPair, h]
      · simp only [insPair, if_neg h]
        exact (ih.cons b).trans (List.Perm.swap a b bs)

theorem sortPairs_perm (l : List (String × String)) : (sortPairs l).Perm l := by
  induction l with
  | nil => simp [sortPairs]
  | cons a as ih => exact (insPair_perm a (sortPairs as)).trans (ih.cons a)

theorem insPair_sorted (a : String × String) (l : List (String × String))
    (h : l.Pairwise (fun x y => x.1 ≤ y.1)) :
    (insPair a l).Pairwise (fun x y => x.1 ≤ y.1) := by
  induction l with
  | nil => simp [insPair]
  | cons b bs ih =>
      rcases List.pairwise_cons.mp h with ⟨hb, hbs⟩
      by_cases hab : a.1 ≤ b.1
      · simp only [insPair, if_pos hab]
        refine List.pairwise_cons.mpr ⟨?_, h⟩
        intro x hx
        rcases List.mem_cons.mp hx with rfl | hx
        · exact hab
        · exact le_trans hab (hb x hx)
      · simp only [insPair, if_neg hab]
        refine List.pairwise_cons.mpr ⟨?_, ih hbs⟩
        intro x hx
        have hx' := (insPair_perm a bs).mem_iff.mp hx
        rcases List.mem_cons.mp hx' with rfl | hx'
        · exact le_of_not_le hab
        · exact hb x hx'

theorem sortPairs_sorted (l : List (String × String)) :
    (sortPairs l).Pairwise (fun x y => x.1 ≤ y.1) := by
  induction l with
  | nil => simp [sortPairs]
  | cons a as ih => exact insPair_sorted a (sortPairs as) ih

theorem pairwise_lt_of_le_nodup (l : List (String × String))
    (h : l.Pairwise (fun x y => x.1 ≤ y.1))
    (hn : (l.map Prod.fst).Nodup) :
    l.Pairwise (fun x y => x.1 < y.1) := by
  induction l with
  | nil => simp
  | cons a as ih =>
      rcases List.pairwise_cons.mp h with ⟨ha, has⟩
      rw [List.map_cons] at hn
      rcases List.nodup_cons.mp hn with ⟨hna, hnas⟩
      refine List.pairwise_cons.mpr ⟨?_, ih has hnas⟩
      intro x hx
      refine lt_of_le_of_ne (ha x hx) ?_
      intro he
      exact hna (List.mem_map.mpr ⟨x, hx, he.symm⟩)

theorem sortPairs_eq_of_perm (l₁ l₂ : List (String × String))
    (hp : l₁.Perm l₂) (hn : (l₁.map Prod.fst).Nodup) :
    sortPairs l₁ = sortPairs l₂ := by
  have hn₂ : (l₂.map Prod.fst).Nodup := ((hp.map Prod.fst).nodup_iff).mp hn
  have hns₁ : ((sortPairs l₁).map Prod.fst).Nodup :=
    (((sortPairs_perm l₁).map Prod.fst).nodup_iff).mpr hn
  have hns₂ : ((sortPairs l₂).map Prod.fst).Nodup :=
    (((sortPairs_perm l₂).map Prod.fst).nodup_iff).mpr hn₂
  haveI : IsAntisymm (String × String) (fun x y => x.1 < y.1) :=
    ⟨fun _ _ h1 h2 => absurd h2 (lt_asymm h1)⟩
  exact List.eq_of_perm_of_sorted
    ((sortPairs_perm l₁).trans (hp.trans (sortPairs_perm l₂).symm))
    (pairwise_lt_of_le_nodup _ (sortPairs_sorted l₁) hns₁)
    (pairwise_lt_of_le_nodup _ (sortPairs_sorted l₂) hns₂)

theorem alookup_perm {κ α : Type} [DecidableEq κ] (k : κ)
    {l₁ l₂ : List (κ × α)} (hp : l₁.Perm l₂)
    (hn : (l₁.map Prod.fst).Nodup) :
    alookup k l₁ = alookup k l₂ := by
  induction hp with
  | nil => rfl
  | cons x _ ih =>
      simp only [alookup]
      rw [List.map_cons] at hn
      rcases List.nodup_cons.mp hn with ⟨_, htl⟩
      by_cases hx : x.1 = k
      · simp [hx]
      · simp only [if_neg hx]
        exact ih htl
  | swap x y l =>
      rw [List.map_cons, List.map_cons] at hn
      have hyx : y.1 ≠ x.1 := by
        have h1 := (List.nodup_cons.mp hn).1
        intro he
        exact h1 (by simp [he])
      simp only [alookup]
      by_cases hy : y.1 = k
      · have hx : ¬x.1 = k := fun hx => hyx (hy.trans hx.symm)
        simp [hy, hx]
      · by_cases hx : x.1 = k <;> simp [hy, hx]
  | trans h₁ _ ih₁ ih₂ =>
      exact (ih₁ hn).trans (ih₂ (((h₁.map Prod.fst).nodup_iff).mp hn))

-- ── C2: the validation hash ───────────────────────────────────────────────

theorem hash_result_perm (sha : String → String) (r' r : JVal)
    (hp : r'.toPairs.Perm r.toPairs)
    (hn : (r.toPairs.map Prod.fst).Nodup) :
    hash_result sha r' = hash_result sha r := by
  have hclean : (cleanPairs r').Perm (cleanPairs r) := hp.filter _
  have hmapped :
      ((cleanPairs r').map (fun kv => (kv.1, jdump kv.2))).Perm
        ((cleanPairs r).map (fun kv => (kv.1, jdump kv.2))) :=
    hclean.map _
  have hkeys :
      (((cleanPairs r').map (fun kv => (kv.1, jdump kv.2))).map Prod.fst).Nodup := by
    have h1 : (((cleanPairs r').map (fun kv => (kv.1, jdump kv.2))).map Prod.fst)
        = (cleanPairs r').map Prod.fst := by
      rw [List.map_map]
      rfl
    rw [h1]
    have hsub : ((cleanPairs r').map Prod.fst).Sublist (r'.toPairs.map Prod.fst) :=
      (List.filter_sublist _).map Prod.fst
    have hn' : (r'.toPairs.map Prod.fst).Nodup :=
      ((hp.map Prod.fst).nodup_iff).mpr hn
    exact hsub.nodup hn'
  unfold hash_result dumpsSorted
  rw [sortPairs_eq_of_perm _ _ hmapped hkeys]

/-- C2 (confirmed): for every extraction result whose keys are distinct
(as any Python dict's are), the view's validation hash is `None` exactly
when `needs_review` is true; otherwise it is the digest of the canonical
serialisation of the non-meta fields with sorted keys, and the whole
output is invariant under any permutation of the result's insertion
order. -/
theorem C2_validation_hash :
    ∀ (sha : String → String) (r : JVal) (b : Bool),
      r.get kNeedsReview = some (.bool b) →
      (r.toPairs.map Prod.fst).Nodup →
      (b = true → viewValidationHash sha r = some none) ∧
      (b = false → viewValidationHash sha r = some (some (hash_result sha r))) ∧
      (∀ r' : JVal, r'.toPairs.Perm r.toPairs →
        viewValidationHash sha r' = viewValidationHash sha r) := by
  intro sha r b hget hn
  refine ⟨?_, ?_, ?_⟩
  · intro hb
    subst hb
    simp [viewValidationHash, hget, pyFalsy]
  · intro hb
    subst hb
    simp [viewValidationHash, hget, pyFalsy]
  · intro r' hp
    have hn' : (r'.toPairs.map Prod.fst).Nodup :=
      ((hp.map Prod.fst).nodup_iff).mpr hn
    have hget' : r'.get kNeedsReview = r.get kNeedsReview := by
      rw [jget_eq_alookup, jget_eq_alookup]
      exact alookup_perm kNeedsReview hp hn'
    have hhash : hash_result sha r' = hash_result sha r :=
      hash_result_perm sha r' r hp hn
    unfold viewValidationHash
    rw [hget', hhash]

/-- C2 witness: the theorem applied to the concrete confident result
`c6r1` (needs_review false) with the identity digest, including the
invariance applied at a concrete permutation of `c6r1`'s fields. -/
theorem C2_witness :
    viewValidationHash (fun s => s) c6r1 =
      some (some (hash_result (fun s => s) c6r1)) ∧
    viewValidationHash (fun s => s)
      (ofPairs [(kCacheHit, .bool false),
                (kProofType, .str c1pt),
                (kLowConfidenceFields, .anil),
                (kNeedsReview, .bool false),
                (kConfidence,
                  ofPairs [("skill_name", .num q910),
                           ("skill_category", .num q910),
                           ("proficiency_level", .num q910)]),
                ("evidence_type", .null),
                ("proficiency_level", .str ("Advanced")),
                ("skill_category", .str ("Programming")),
                ("skill_name", .str ("Rust"))]) =
      viewValidationHash (fun s => s) c6r1 :=
  ⟨(C2_validation_hash (fun s => s) c6r1 false (by decide) (by decide)).2.1 rfl,
   (C2_validation_hash (fun s => s) c6r1 false (by decide) (by decide)).2.2 _
     (by decide)⟩

-- ── Shape lemmas for extractInner ─────────────────────────────────────────

theorem annotate_ok_isObj (parsed : JVal) (pt : String) (r : JVal)
    (h : annotateResult parsed pt = .ok r) : isObj parsed = true := by
  cases parsed <;> simp_all [annotateResult, isObj]

theorem extractInner_ok_chain
    (jl : String → Option JVal) (apiKey : Option String)
    (att : Nat → HttpAttempt) (pt mime fn : String)
    (r : JVal) (n : Nat) (w : ℚ)
    (hwf : jlWf jl)
    (h : extractInner jl apiKey att pt mime fn = (.ok r, n, w)) :
    isObjChain r = true := by
  unfold extractInner at h
  split at h
  · simp at h
  · split at h
    · simp at h
    · split at h
      · simp at h
      · rename_i apiResp n' w' hrr
        split at h
        · simp at h
        · rename_i raw hraw
          split at h
          · simp at h
          · rename_i parsed hparse
            split at h
            · simp at h
            · rename_i r' hann
              have hr : r' = r := by
                simp only [Prod.mk.injEq, Except.ok.injEq] at h
                exact h.1
              subst hr
              unfold parse_response at hparse
              cases hjl : jl (pyStrip ((stripFencesAux (pyStrip raw).toList true).asString)) with
              | some v =>
                  simp only [hjl] at hparse
                  have hv : v = parsed := by simpa using hparse
                  rw [hv] at hjl
                  have hobj := annotate_ok_isObj parsed pt r' hann
                  rcases hwf _ _ hjl with hchain | hnobj
                  · obtain ⟨low, _, _, hrc⟩ := annotate_ok parsed pt r' hchain hann
                    exact hrc
                  · rw [hobj] at hnobj
                    cases hnobj
              | none =>
                  simp only [hjl] at hparse
                  simp at hparse

theorem extract_proof_hit
    (sha : List Nat → String) (jl : String → Option JVal)
    (apiKey : Option String) (att : Nat → HttpAttempt)
    (cache : List (String × JVal)) (bytes : List Nat)
    (pt mime fn : String) (r : JVal)
    (hhit : alookup (sha bytes) cache = some r) :
    extract_proof sha jl apiKey att cache bytes pt mime fn =
      (.ok (r.set kCacheHit (.bool true)), cache, 0) := by
  unfold extract_proof
  simp only [hhit]

theorem extract_proof_miss_ok
    (sha : List Nat → String) (jl : String → Option JVal)
    (apiKey : Option String) (att : Nat → HttpAttempt)
    (cache : List (String × JVal)) (bytes : List Nat)
    (pt mime fn : String) (r₁ : JVal) (c₁ : List (String × JVal)) (n₁ : Nat)
    (hmiss : alookup (sha bytes) cache = none)
    (h : extract_proof sha jl apiKey att cache bytes pt mime fn = (.ok r₁, c₁, n₁)) :
    ∃ r₀ w, extractInner jl apiKey att pt mime fn = (.ok r₀, n₁, w) ∧
      r₁ = r₀.set kCacheHit (.bool false) ∧
      c₁ = aset (sha bytes) r₁ cache := by
  unfold extract_proof at h
  simp only [hmiss] at h
  split at h
  · simp at h
  · rename_i r₀ n₀ w₀ hinner
    simp only [Prod.mk.injEq, Except.ok.injEq] at h
    obtain ⟨hr, hc, hn⟩ := h
    subst hn
    subst hr
    exact ⟨r₀, w₀, hinner, rfl, hc.symm⟩

theorem extract_proof_error_cache
    (sha : List Nat → String) (jl : String → Option JVal)
    (apiKey : Option String) (att : Nat → HttpAttempt)
    (cache : List (String × JVal)) (bytes : List Nat)
    (pt mime fn : String) (e : PyErr) (c' : List (String × JVal)) (n : Nat)
    (h : extract_proof sha jl apiKey att cache bytes pt mime fn = (.error e, c', n)) :
    c' = cache := by
  unfold extract_proof at h
  cases hl : alookup (sha bytes) cache with
  | some r =>
      simp only [hl] at h
      simp at h
  | none =>
      simp only [hl] at h
      split at h
      · simp only [Prod.mk.injEq] at h
        exact h.2.1.symm
      · simp at h

-- ── C3: validation versus the cache decorator ─────────────────────────────

/-- C3, counterexample.  The claim says the credential / proof-type
rejection happens *before* the cache lookup, applying even to cached
bytes.  In the code the `cached` decorator wraps `extract_proof`, so the
lookup runs first: with no API key configured and the unrecognised proof
type `"bogus"`, a call whose bytes are already cached returns the cached
result instead of raising `PermanentAPIError`. -/
theorem C3_counterexample :
    keyFalsy none = true ∧
    PROMPT_KEYS.contains c3pt = false ∧
    (extract_proof cSha c1jl none cAtt200 c3cache cBytes c3pt cMime cFname).1 =
      .ok (c3stored.set kCacheHit (.bool true)) := by
  decide

/-- C3 (amended): the immediate `PermanentAPIError` for a missing service
credential or an unrecognised proof type holds only on a cache miss —
the decorator's cache lookup precedes validation.  On a miss the
rejection happens before any HTTP attempt (0 attempts) and leaves the
cache unchanged. -/
theorem C3_validation_on_miss :
    ∀ (sha : List Nat → String) (jl : String → Option JVal)
      (apiKey : Option String) (att : Nat → HttpAttempt)
      (cache : List (String × JVal)) (bytes : List Nat)
      (pt mime fn : String),
      alookup (sha bytes) cache = none →
      (keyFalsy apiKey = true ∨ PROMPT_KEYS.contains pt = false) →
      ∃ m, extract_proof sha jl apiKey att cache bytes pt mime fn =
        (.error (.permanent m), cache, 0) := by
  intro sha jl apiKey att cache bytes pt mime fn hmiss hbad
  unfold extract_proof
  simp only [hmiss]
  by_cases hk : keyFalsy apiKey = true
  · exact ⟨("ANTHROPIC_API_KEY environment variable is not set."),
      by simp [extractInner, hk]⟩
  · rcases hbad with hbad | hbad
    · exact absurd hbad hk
    · have hmem : pt ∉ PROMPT_KEYS := by simpa using hbad
      exact ⟨("Invalid proof_type"), by simp [extractInner, hk, hmem]⟩

/-- C3 witness: the amended statement at a concrete cache miss with no
credential and an invalid proof type. -/
theorem C3_witness :
    ∃ m, extract_proof cSha c1jl none cAtt200 [] cBytes c3pt cMime cFname =
      (.error (.permanent m), [], 0) :=
  C3_validation_on_miss cSha c1jl none cAtt200 [] cBytes c3pt cMime cFname
    (by decide) (Or.inl (by decide))

-- ── C4: the retry policy ──────────────────────────────────────────────────

theorem runRetry_all_transient (att : Nat → AttemptResult)
    (h : ∀ n, ∃ m, att n = .transient m) :
    ∃ m, runRetry att = (.error (.transient m), 3, waitAfter 1 + waitAfter 2) := by
  obtain ⟨m1, h1⟩ := h 1
  obtain ⟨m2, h2⟩ := h 2
  obtain ⟨m3, h3⟩ := h 3
  refine ⟨m3, ?_⟩
  simp [runRetry, runRetryGo, h1, h2, h3]

theorem runRetry_permanent_first (att : Nat → AttemptResult) (m : String)
    (h : att 1 = .permanent m) :
    runRetry att = (.error (.permanent m), 1, 0) := by
  simp [runRetry, runRetryGo, h]

/-- C4 (confirmed): with a configured credential and a recognised proof
type, a service failing transiently on every attempt is retried to
exactly 3 attempts and the transient failure is then surfaced (with the
two clamped exponential backoff waits accumulated); a permanent failure
on attempt 1 is surfaced after exactly 1 attempt with zero total backoff
wait. -/
theorem C4_retry_bounds :
    ∀ (jl : String → Option JVal) (apiKey : Option String)
      (att : Nat → HttpAttempt) (pt mime fn : String),
      keyFalsy apiKey = false →
      PROMPT_KEYS.contains pt = true →
      ((∀ n, ∃ m, classifyAttempt jl (att n) = .transient m) →
        ∃ m, extractInner jl apiKey att pt mime fn =
          (.error (.transient m), 3, waitAfter 1 + waitAfter 2)) ∧
      (∀ m, classifyAttempt jl (att 1) = .permanent m →
        extractInner jl apiKey att pt mime fn = (.error (.permanent m), 1, 0)) := by
  intro jl apiKey att pt mime fn hkey hpt
  have hmem : pt ∈ PROMPT_KEYS := by simpa using hpt
  constructor
  · intro h
    obtain ⟨m, hm⟩ := runRetry_all_transient (fun n => classifyAttempt jl (att n)) h
    exact ⟨m, by simp [extractInner, hkey, hmem, hm]⟩
  · intro m hm
    have hr := runRetry_permanent_first (fun n => classifyAttempt jl (att n)) m hm
    simp [extractInner, hkey, hmem, hr]

/-- C4 witness: an always-timing-out service yields 3 attempts and a
surfaced transient failure; an immediate HTTP 400 yields 1 attempt, a
surfaced permanent failure, and no backoff. -/
theorem C4_witness :
    (∃ m, extractInner c1jl cKey (fun _ => .timeout) c1pt cMime cFname =
      (.error (.transient m), 3, waitAfter 1 + waitAfter 2)) ∧
    extractInner c1jl cKey (fun _ => .response 400 cBody) c1pt cMime cFname =
      (.error (.permanent ("Invalid request")), 1, 0) :=
  ⟨(C4_retry_bounds c1jl cKey (fun _ => .timeout) c1pt cMime cFname
      (by decide) (by decide)).1
      (fun _ => ⟨("Request to Anthropic API timed out"), rfl⟩),
   (C4_retry_bounds c1jl cKey (fun _ => .response 400 cBody) c1pt cMime cFname
      (by decide) (by decide)).2 ("Invalid request") rfl⟩

-- ── C5: per-attempt HTTP outcome classification ───────────────────────────

/-- C5, counterexample.  The claim maps *every* other non-2xx status to
`PermanentError`, but `raise_for_status` only raises for statuses in
400-599: a status below 400 (here 300) falls through to
`response.json()` and, with a JSON body, the attempt succeeds. -/
theorem C5_counterexample : ¬ claimC5 := by
  intro h
  obtain ⟨_, _, _, _, h5⟩ := h c1jl 300 cBody
  obtain ⟨m, hm⟩ := h5 (by omega)
  rw [show classifyAttempt c1jl (.response 300 cBody) = .ok cEnv from by decide] at hm
  cases hm

/-- C5 (amended): per attempt, 429 and 5xx raise `TransientAPIError`;
401 and 400 raise `PermanentAPIError`; every other status in 400-599
raises `PermanentAPIError` (via `raise_for_status`); a status below 400
proceeds to parse the response body, succeeding on valid JSON and
raising `PermanentAPIError` otherwise; timeouts and connection failures
raise `TransientAPIError`. -/
theorem C5_attempt_classification :
    ∀ (jl : String → Option JVal) (st : Nat) (body m' : String),
      (st = 429 ∨ (500 ≤ st ∧ st < 600) →
        ∃ m, classifyAttempt jl (.response st body) = .transient m) ∧
      (st = 401 ∨ st = 400 →
        ∃ m, classifyAttempt jl (.response st body) = .permanent m) ∧
      (400 ≤ st ∧ st < 600 →
        ∃ m, (classifyAttempt jl (.response st body) = .permanent m ∨
              classifyAttempt jl (.response st body) = .transient m)) ∧
      (400 ≤ st ∧ st < 500 ∧ st ≠ 429 →
        ∃ m, classifyAttempt jl (.response st body) = .permanent m) ∧
      (st < 400 →
        (∀ v, jl body = some v →
          classifyAttempt jl (.response st body) = .ok v) ∧
        (jl body = none →
          ∃ m, classifyAttempt jl (.response st body) = .permanent m)) ∧
      (∃ m, classifyAttempt jl .timeout = .transient m) ∧
      (∃ m, classifyAttempt jl (.connError m') = .transient m) := by
  intro jl st body m'
  refine ⟨?_, ?_, ?_, ?_, ?_, ⟨_, rfl⟩, ⟨m', rfl⟩⟩
  · rintro (rfl | ⟨h5, h6⟩)
    · exact ⟨("Rate limited"), by simp [classifyAttempt]⟩
    · refine ⟨("Server error"), ?_⟩
      have h429 : ¬ st = 429 := by omega
      simp [classifyAttempt, h429, h5, h6]
  · rintro (rfl | rfl)
    · exact ⟨("Authentication failed"), by simp [classifyAttempt]⟩
    · exact ⟨("Invalid request"), by simp [classifyAttempt]⟩
  · intro ⟨h4, h6⟩
    by_cases h429 : st = 429
    · exact ⟨("Rate limited"), Or.inr (by simp [classifyAttempt, h429])⟩
    · by_cases h5xx : 500 ≤ st
      · exact ⟨("Server error"), Or.inr (by simp [classifyAttempt, h429, h5xx, h6])⟩
      · by_cases h401 : st = 401
        · exact ⟨("Authentication failed"),
            Or.inl (by simp [classifyAttempt, h429, h401])⟩
        · by_cases h400 : st = 400
          · exact ⟨("Invalid request"),
              Or.inl (by simp [classifyAttempt, h429, h400, h401, h5xx])⟩
          · exact ⟨("Request error"),
              Or.inl (by simp [classifyAttempt, h429, h400, h401, h5xx, h4, h6])⟩
  · intro ⟨h4, h5, h429⟩
    by_cases h401 : st = 401
    · exact ⟨("Authentication failed"),
        by simp [classifyAttempt, h429, h401, (by omega : st < 500)]⟩
    · by_cases h400 : st = 400
      · exact ⟨("Invalid request"),
          by simp [classifyAttempt, h429, h400, h401, (by omega : st < 500)]⟩
      · exact ⟨("Request error"),
          by simp [classifyAttempt, h429, h400, h401, h4,
            (by omega : st < 500), (by omega : st < 600)]⟩
  · intro hlt
    have h429 : ¬ st = 429 := by omega
    have h401 : ¬ st = 401 := by omega
    have h400 : ¬ st = 400 := by omega
    have h5xx : ¬ 500 ≤ st := by omega
    have h4 : ¬ 400 ≤ st := by omega
    constructor
    · intro v hv
      simp [classifyAttempt, h429, h401, h400, h5xx, h4, hv]
    · intro hv
      exact ⟨("Request error"), by simp [classifyAttempt, h429, h401, h400, h5xx, h4, hv]⟩

/-- C5 witness: the amended classification at concrete statuses — 503 is
transient, 404 permanent, and 300 with a JSON body succeeds. -/
theorem C5_witness :
    (∃ m, classifyAttempt c1jl (.response 503 cBody) = .transient m) ∧
    (∃ m, classifyAttempt c1jl (.response 404 cBody) = .permanent m) ∧
    classifyAttempt c1jl (.response 300 cBody) = .ok cEnv :=
  ⟨(C5_attempt_classification c1jl 503 cBody cBody).1 (Or.inr (by omega)),
   (C5_attempt_classification c1jl 404 cBody cBody).2.2.2.1 (by omega),
   ((C5_attempt_classification c1jl 300 cBody cBody).2.2.2.2.1 (by omega)).1
     cEnv (by decide)⟩

theorem jlWf_c1jl : jlWf c1jl := by
  intro s v h
  unfold c1jl at h
  by_cases h1 : s = "ENV"
  · rw [if_pos h1] at h
    obtain rfl : cEnv = v := by simpa using h
    left
    decide
  · rw [if_neg h1] at h
    by_cases h2 : s = "PAYLOAD"
    · rw [if_pos h2] at h
      obtain rfl : c1parsed = v := by simpa using h
      left
      decide
    · rw [if_neg h2] at h
      cases h

-- ── C6: cache idempotence ─────────────────────────────────────────────────

/-- C6 (confirmed): if a first call on uncached bytes succeeds, a second
call with the same bytes is served from the cache: it returns the stored
result with only `cache_hit` flipped to true, performs no HTTP attempt
(0 attempts, for any network behaviour `att'`), leaves the cache
unchanged, and agrees with the first result on every other key. -/
theorem C6_cache_idempotence :
    ∀ (sha : List Nat → String) (jl : String → Option JVal)
      (apiKey : Option String) (att att' : Nat → HttpAttempt)
      (cache : List (String × JVal)) (bytes : List Nat) (pt mime fn : String)
      (r₁ : JVal) (c₁ : List (String × JVal)) (n₁ : Nat),
      jlWf jl →
      alookup (sha bytes) cache = none →
      extract_proof sha jl apiKey att cache bytes pt mime fn = (.ok r₁, c₁, n₁) →
      extract_proof sha jl apiKey att' c₁ bytes pt mime fn =
        (.ok (r₁.set kCacheHit (.bool true)), c₁, 0) ∧
      r₁.get kCacheHit = some (.bool false) ∧
      (r₁.set kCacheHit (.bool true)).get kCacheHit = some (.bool true) ∧
      (∀ k, k ≠ kCacheHit → (r₁.set kCacheHit (.bool true)).get k = r₁.get k) := by
  intro sha jl apiKey att att' cache bytes pt mime fn r₁ c₁ n₁ hwf hmiss h
  obtain ⟨r₀, w, hinner, hr, hc⟩ :=
    extract_proof_miss_ok sha jl apiKey att cache bytes pt mime fn r₁ c₁ n₁ hmiss h
  have hchain₀ : isObjChain r₀ = true :=
    extractInner_ok_chain jl apiKey att pt mime fn r₀ n₁ w hwf hinner
  have hchain₁ : isObjChain r₁ = true := hr ▸ isObjChain_set r₀ _ _ hchain₀
  have hhit : alookup (sha bytes) c₁ = some r₁ := by
    rw [hc]
    exact alookup_aset_same _ _ _
  refine ⟨extract_proof_hit sha jl apiKey att' c₁ bytes pt mime fn r₁ hhit ▸ ?_,
    ?_, ?_, ?_⟩
  · rw [extract_proof_hit sha jl apiKey att' c₁ bytes pt mime fn r₁ hhit]
  · rw [hr]
    exact jget_set_same r₀ _ _ hchain₀
  · exact jget_set_same r₁ _ _ hchain₁
  · intro k hk
    exact jget_set_ne r₁ _ _ _ hk

/-- C6 witness: the idempotence instantiated at the concrete oracle
`c1jl`: the second call returns the stored `c6r1` with `cache_hit=true`,
zero attempts, and identical data fields. -/
theorem C6_witness :
    extract_proof cSha c1jl cKey cAtt200 c6cache cBytes c1pt cMime cFname =
      (.ok (c6r1.set kCacheHit (.bool true)), c6cache, 0) ∧
    c6r1.get kCacheHit = some (.bool false) ∧
    (c6r1.set kCacheHit (.bool true)).get kCacheHit = some (.bool true) ∧
    (∀ k, k ≠ kCacheHit → (c6r1.set kCacheHit (.bool true)).get k = c6r1.get k) :=
  C6_cache_idempotence cSha c1jl cKey cAtt200 cAtt200 [] cBytes c1pt cMime cFname
    c6r1 c6cache 1 jlWf_c1jl (by decide) (by decide)

-- ── C7: shallow copy on cache hit ─────────────────────────────────────────

theorem alookup_some_mem {κ α : Type} [DecidableEq κ] (k : κ) (v : α) :
    ∀ l : List (κ × α), alookup k l = some v → (k, v) ∈ l := by
  intro l
  induction l with
  | nil => intro h; cases h
  | cons p rest ih =>
      intro h
      obtain ⟨k', v'⟩ := p
      by_cases hk : k' = k
      · subst hk
        simp [alookup] at h
        simp [h]
      · simp only [alookup, if_neg hk] at h
        exact List.mem_cons_of_mem _ (ih h)

theorem heapDictSet_get_other (h : Heap) (a a' : Nat) (k : String) (v : PyVal)
    (hne : a ≠ a') : (heapDictSet h a' k v).get a = h.get a := by
  unfold heapDictSet
  cases hg : h.get a' with
  | some o =>
      cases o with
      | dict es =>
          unfold Heap.put Heap.get
          exact alookup_aset_ne _ _ _ hne _
      | list items => rfl
  | none => rfl

/-- C7, counterexample.  A cache hit executes `_CACHE[key].copy()` — a
*shallow* copy.  In the heap model the stored result at address 0 holds
`confidence ↦ mref 1`; the returned copy (address 3) holds the same
reference, so a caller mutating the confidence dict reached through the
returned result changes the stored entry: the stored entry's nested
`confidence["job_title"]` score flips from 0.9 to 0.1. -/
theorem C7_counterexample :
    heapDictGet (cacheHitCopy c7heap 0).1 (cacheHitCopy c7heap 0).2 kConfidence =
      some (.mref 1) ∧
    heapDictGet c7heap 0 kConfidence = some (.mref 1) ∧
    heapDictGet c7heap 1 kJobTitle = some (.imm (.num q910)) ∧
    (heapDictGet
        (heapDictSet (cacheHitCopy c7heap 0).1 1 kJobTitle (.imm (.num q110)))
        0 kConfidence = some (.mref 1) ∧
     heapDictGet
        (heapDictSet (cacheHitCopy c7heap 0).1 1 kJobTitle (.imm (.num q110)))
        1 kJobTitle = some (.imm (.num q110))) := by
  decide

/-- C7 (amended): the cache-hit copy is shallow.  Top-level isolation
does hold: the copy lives at a fresh address, the decorator's own
`cache_hit` write and any further top-level write through the copy leave
the stored entry's own mapping untouched.  (Nested mutable values are
shared — that is the counterexample.) -/
theorem C7_shallow_copy_isolation :
    ∀ (h : Heap) (a : Nat) (es : List (String × PyVal)) (k : String) (v : PyVal),
      h.wf →
      h.get a = some (.dict es) →
      (cacheHitCopy h a).2 ≠ a ∧
      (cacheHitCopy h a).1.get a = some (.dict es) ∧
      (heapDictSet (cacheHitCopy h a).1 (cacheHitCopy h a).2 k v).get a =
        some (.dict es) := by
  intro h a es k v hwf hg
  have ha : a < h.next := hwf _ (alookup_some_mem a _ h.mem hg)
  have hne : a ≠ h.next := by omega
  have h2 : (cacheHitCopy h a).2 = h.next := rfl
  have halloc : (Heap.alloc h (.dict (dictEntries h a))).1.get a =
      some (.dict es) := by
    unfold Heap.alloc Heap.get
    simp only
    rw [alookup_aset_ne _ _ _ hne]
    exact hg
  have hcopy : (cacheHitCopy h a).1.get a = some (.dict es) := by
    unfold cacheHitCopy
    simp only
    have hal2 : (Heap.alloc h (.dict (dictEntries h a))).2 = h.next := rfl
    rw [hal2, heapDictSet_get_other _ _ _ _ _ hne]
    exact halloc
  refine ⟨by rw [h2]; exact Ne.symm hne, hcopy, ?_⟩
  rw [h2, heapDictSet_get_other _ _ _ _ _ hne]
  exact hcopy

/-- C7 witness: the shallow-copy isolation at the concrete heap
`c7heap`. -/
theorem C7_witness :
    (cacheHitCopy c7heap 0).2 ≠ 0 ∧
    (cacheHitCopy c7heap 0).1.get 0 =
      some (.dict [(kJobTitle, .imm (.str ("Engineer"))),
                   (kConfidence, .mref 1),
                   (kLowConfidenceFields, .mref 2),
                   (kNeedsReview, .imm (.bool false)),
                   (kCacheHit, .imm (.bool false))]) ∧
    (heapDictSet (cacheHitCopy c7heap 0).1 (cacheHitCopy c7heap 0).2
        kJobTitle (.imm (.str ("Intern")))).get 0 =
      some (.dict [(kJobTitle, .imm (.str ("Engineer"))),
                   (kConfidence, .mref 1),
                   (kLowConfidenceFields, .mref 2),
                   (kNeedsReview, .imm (.bool false)),
                   (kCacheHit, .imm (.bool false))]) :=
  C7_shallow_copy_isolation c7heap 0 _ kJobTitle (.imm (.str ("Intern")))
    (by intro p hp; fin_cases hp <;> decide) (by decide)

-- ── C10: cache error-atomicity ────────────────────────────────────────────

/-- C10 (confirmed): a failing call never stores anything — the decorator
stores only after the wrapped function returns, so on any raised error
the cache is unchanged, and a subsequent call on the same (still
uncached) bytes runs a fresh extraction whose success carries
`cache_hit=false`. -/
theorem C10_cache_error_atomicity :
    ∀ (sha : List Nat → String) (jl : String → Option JVal)
      (apiKey : Option String) (att : Nat → HttpAttempt)
      (cache : List (String × JVal)) (bytes : List Nat) (pt mime fn : String)
      (e : PyErr) (c' : List (String × JVal)) (n : Nat),
      extract_proof sha jl apiKey att cache bytes pt mime fn = (.error e, c', n) →
      c' = cache ∧
      (∀ (jl' : String → Option JVal) (apiKey' : Option String)
         (att' : Nat → HttpAttempt) (r₂ : JVal)
         (c₂ : List (String × JVal)) (n₂ : Nat),
        jlWf jl' →
        alookup (sha bytes) cache = none →
        extract_proof sha jl' apiKey' att' c' bytes pt mime fn = (.ok r₂, c₂, n₂) →
        r₂.get kCacheHit = some (.bool false)) := by
  intro sha jl apiKey att cache bytes pt mime fn e c' n h
  have hc : c' = cache :=
    extract_proof_error_cache sha jl apiKey att cache bytes pt mime fn e c' n h
  refine ⟨hc, ?_⟩
  intro jl' apiKey' att' r₂ c₂ n₂ hwf hmiss h₂
  rw [hc] at h₂
  obtain ⟨r₀, w, hinner, hr, _⟩ :=
    extract_proof_miss_ok sha jl' apiKey' att' cache bytes pt mime fn r₂ c₂ n₂
      hmiss h₂
  have hchain₀ : isObjChain r₀ = true :=
    extractInner_ok_chain jl' apiKey' att' pt mime fn r₀ n₂ w hwf hinner
  rw [hr]
  exact jget_set_same r₀ _ _ hchain₀

/-- C10 witness: a first call failing on the missing credential leaves
the cache empty, and the follow-up call under the working oracle returns
a fresh `cache_hit=false` result. -/
theorem C10_witness :
    ([] : List (String × JVal)) = [] ∧ c6r1.get kCacheHit = some (.bool false) :=
  ⟨(C10_cache_error_atomicity cSha c1jl none cAtt200 [] cBytes c1pt cMime cFname
      (.permanent ("ANTHROPIC_API_KEY environment variable is not set.")) [] 0
      (by decide)).1,
   (C10_cache_error_atomicity cSha c1jl none cAtt200 [] cBytes c1pt cMime cFname
      (.permanent ("ANTHROPIC_API_KEY environment variable is not set.")) [] 0
      (by decide)).2 c1jl cKey cAtt200 c6r1 c6cache 1 jlWf_c1jl (by decide)
      (by decide)⟩

-- ── C8: totality and determinism of the schema detector ───────────────────


-- ── C8: totality and determinism of the schema detector ───────────────────

set_option maxHeartbeats 2000000 in
theorem pySplitlinesAux_allWs :
    ∀ (cs acc : List Char),
      (∀ c ∈ cs, isPyWs c = true) → (∀ c ∈ acc, isPyWs c = true) →
      ∀ l ∈ pySplitlinesAux cs acc, ∀ c ∈ l.toList, isPyWs c = true := by
  intro cs acc
  induction cs, acc using pySplitlinesAux.induct with
  | case1 acc hacc' =>
      intro _ _ l hl c _
      rw [pySplitlinesAux.eq_1, if_pos hacc'] at hl
      cases hl
  | case2 acc hacc' =>
      intro _ hacc l hl c hc
      rw [pySplitlinesAux.eq_1, if_neg hacc'] at hl
      rcases List.mem_singleton.mp hl with rfl
      exact hacc c (List.mem_reverse.mp hc)
  | case3 rest acc ih =>
      intro hcs hacc l hl c hc
      rw [pySplitlinesAux.eq_2] at hl
      rcases List.mem_cons.mp hl with rfl | hl
      · exact hacc c (List.mem_reverse.mp hc)
      · exact ih (fun x hx => hcs x (by simp [hx]))
          (fun x hx => (List.not_mem_nil x hx).elim) l hl c hc
  | case4 c0 rest acc hne hb ih =>
      intro hcs hacc l hl c hc
      rw [pySplitlinesAux.eq_3 _ _ _ hne, if_pos hb] at hl
      rcases List.mem_cons.mp hl with rfl | hl
      · exact hacc c (List.mem_reverse.mp hc)
      · exact ih (fun x hx => hcs x (by simp [hx]))
          (fun x hx => (List.not_mem_nil x hx).elim) l hl c hc
  | case5 c0 rest acc hne hb ih =>
      intro hcs hacc l hl c hc
      rw [pySplitlinesAux.eq_3 _ _ _ hne, if_neg hb] at hl
      refine ih (fun x hx => hcs x (by simp [hx])) ?_ l hl c hc
      intro x hx
      rcases List.mem_cons.mp hx with rfl | hx
      · exact hcs x (by simp)
      · exact hacc x hx

theorem pyStrip_ws (s : String) (h : ∀ c ∈ s.toList, isPyWs c = true) :
    pyStrip s = "" := by
  unfold pyStrip
  have hdrop : s.toList.dropWhile isPyWs = [] := by
    rw [List.dropWhile_eq_nil_iff]
    intro x hx
    exact h x hx
  rw [hdrop]
  rfl

theorem pyLines_nil_of_ws (text : String)
    (h : ∀ c ∈ text.toList, isPyWs c = true) : pyLines text = [] := by
  unfold pyLines
  rw [List.filter_eq_nil_iff]
  intro l hl
  rcases List.mem_map.mp hl with ⟨l₀, hl₀, rfl⟩
  have hws := pySplitlinesAux_allWs text.toList [] h
    (fun x hx => (List.not_mem_nil x hx).elim) l₀ hl₀
  simp [pyStrip_ws l₀ hws]

/-- C8 (confirmed): the schema detector is a total, deterministic
function.  Every input maps to exactly one of
linkedin / resume_block / generic, identical inputs yield identical
results, and whitespace-only (or empty) text falls to the empty-lines
guard and returns `generic` without reaching any detection rule. -/
theorem C8_detect_schema :
    ∀ text : String,
      (detect_schema text = kLinkedin ∨ detect_schema text = kResumeBlock ∨
        detect_schema text = kGeneric) ∧
      detect_schema text = detect_schema text ∧
      ((∀ c ∈ text.toList, isPyWs c = true) → detect_schema text = kGeneric) := by
  intro text
  refine ⟨?_, rfl, ?_⟩
  · unfold detect_schema
    cases hpl : pyLines text with
    | nil => simp
    | cons first rest =>
        simp only
        split
        · exact Or.inl rfl
        · split
          · exact Or.inr (Or.inl rfl)
          · split
            · exact Or.inr (Or.inl rfl)
            · exact Or.inr (Or.inr rfl)
  · intro h
    unfold detect_schema
    rw [pyLines_nil_of_ws text h]

/-- C8 witness: the detector at a whitespace-only input. -/
theorem C8_witness : detect_schema ("  \n \t ") = kGeneric :=
  (C8_detect_schema ("  \n \t ")).2.2 (by decide)

-- ── C9: totality and placeholder discipline of the extractors ─────────────

theorem isStrOrNull_optToJ (o : Option String) :
    isStrOrNull (optToJ o) = true := by
  cases o <;> rfl

/-- C9 (confirmed): each heuristic extractor is a total function (a
defined Lean function on all of `String`, with no error path): on every
input — including the empty string — it returns a record with exactly
its declared key set, never omitting a key; every job-extractor value is
an explicit null or a string, and every certificate value is a string
(defaulting to "Unknown" where its pattern finds nothing). -/
theorem C9_extractors_total :
    ∀ text : String,
      ((extract_linkedin_job text).toPairs.map Prod.fst =
        [kSchema, kJobTitle, kCompany, kEmploymentType, kDateRange, kLocation]) ∧
      (∀ p ∈ (extract_linkedin_job text).toPairs, isStrOrNull p.2 = true) ∧
      ((extract_resume_block_job text).toPairs.map Prod.fst =
        [kSchema, kJobTitle, kCompany, kEmploymentType, kDateRange]) ∧
      (∀ p ∈ (extract_resume_block_job text).toPairs, isStrOrNull p.2 = true) ∧
      ((extract_generic_job text).toPairs.map Prod.fst =
        [kSchema, kJobTitle, kCompany, kEmploymentType, kDateRange]) ∧
      (∀ p ∈ (extract_generic_job text).toPairs, isStrOrNull p.2 = true) ∧
      ((extract_certificate text).toPairs.map Prod.fst =
        [kCertificateTitle, kRecipientName, kIssuer, kIssuerSignatory,
         kIssuerTitle, kIssueDate, kCredentialType, kVerificationUrl,
         kProgramDuration]) ∧
      (∀ p ∈ (extract_certificate text).toPairs, isStrVal p.2 = true) := by
  intro text
  refine ⟨?_, ?_, ?_, ?_, ?_, ?_, ?_, ?_⟩
  · simp only [extract_linkedin_job]
    rw [toPairs_ofPairs]
    rfl
  · simp only [extract_linkedin_job]
    rw [toPairs_ofPairs]
    intro p hp
    simp only [List.mem_cons, List.not_mem_nil, or_false] at hp
    rcases hp with rfl | rfl | rfl | rfl | rfl | rfl <;>
      first
      | rfl
      | exact isStrOrNull_optToJ _
  · simp only [extract_resume_block_job]
    rw [toPairs_ofPairs]
    rfl
  · simp only [extract_resume_block_job]
    rw [toPairs_ofPairs]
    intro p hp
    simp only [List.mem_cons, List.not_mem_nil, or_false] at hp
    rcases hp with rfl | rfl | rfl | rfl | rfl <;>
      first
      | rfl
      | exact isStrOrNull_optToJ _
  · simp only [extract_generic_job]
    rw [toPairs_ofPairs]
    rfl
  · simp only [extract_generic_job]
    rw [toPairs_ofPairs]
    intro p hp
    simp only [List.mem_cons, List.not_mem_nil, or_false] at hp
    rcases hp with rfl | rfl | rfl | rfl | rfl <;>
      first
      | rfl
      | exact isStrOrNull_optToJ _
  · simp only [extract_certificate]
    rw [toPairs_ofPairs]
    rfl
  · simp only [extract_certificate]
    rw [toPairs_ofPairs]
    intro p hp
    simp only [List.mem_cons, List.not_mem_nil, or_false] at hp
    rcases hp with rfl | rfl | rfl | rfl | rfl | rfl | rfl | rfl | rfl <;> rfl

/-- C9 witness: the key sets at the empty input. -/
theorem C9_witness :
    (extract_linkedin_job ("")).toPairs.map Prod.fst =
      [kSchema, kJobTitle, kCompany, kEmploymentType, kDateRange, kLocation] ∧
    (extract_certificate ("")).toPairs.map Prod.fst =
      [kCertificateTitle, kRecipientName, kIssuer, kIssuerSignatory,
       kIssuerTitle, kIssueDate, kCredentialType, kVerificationUrl,
       kProgramDuration] ∧
    (∀ p ∈ (extract_certificate ("")).toPairs, isStrVal p.2 = true) :=
  ⟨(C9_extractors_total ("")).1, (C9_extractors_total ("")).2.2.2.2.2.2.1,
   (C9_extractors_total ("")).2.2.2.2.2.2.2⟩

-- ── Faithfulness checks against the spec's worked examples ────────────────

/-- Spec §8 LinkedIn example: the four-line card extracts exactly the
stated fields (and the detector classifies it as linkedin). -/
theorem linkedin_example_matches_spec :
    detect_schema ("Community Lead\nEkoLance · part-time\nNov 2022 - Jan 2025\nGermany · Remote") = kLinkedin ∧
    extract_linkedin_job ("Community Lead\nEkoLance · part-time\nNov 2022 - Jan 2025\nGermany · Remote") =
      ofPairs [(kSchema, .str kLinkedin),
               (kJobTitle, .str ("Community Lead")),
               (kCompany, .str ("EkoLance")),
               (kEmploymentType, .str ("part-time")),
               (kDateRange, .str ("Nov 2022 - Jan 2025")),
               (kLocation, .str ("Germany · Remote"))] := by
  decide

/-- Spec §8 resume-block example: the parenthetical and the year-onward
tail are stripped from the company line. -/
theorem resume_company_example_matches_spec :
    (extract_resume_block_job
        ("BITCOIN PIZZA DAY FEST 2025. Pan-Africa (Remote)")).get kCompany =
      some (.str ("BITCOIN PIZZA DAY FEST")) := by
  decide

/-- Spec §8 certificate example: issuer, recipient and title come from
the marker lines. -/
theorem certificate_example_matches_spec :
    (extract_certificate
        ("freeCodeCamp\ncertifies that\nJane Doe\nhas successfully completed\nDeveloper Certification")).get kIssuer =
      some (.str ("freeCodeCamp")) ∧
    (extract_certificate
        ("freeCodeCamp\ncertifies that\nJane Doe\nhas successfully completed\nDeveloper Certification")).get kRecipientName =
      some (.str ("Jane Doe")) ∧
    (extract_certificate
        ("freeCodeCamp\ncertifies that\nJane Doe\nhas successfully completed\nDeveloper Certification")).get kCertificateTitle =
      some (.str ("Developer Certification")) := by
  decide
